import Mathlib

/-!
The okchain `x/swap` handler: pool creation and add-liquidity

A shallow embedding of `src/x/swap/handler.go` (`handleMsgCreateExchange`,
`handleMsgAddLiquidity`) together with the parts of the cosmos-sdk value types
the handler computes with, followed by theorems about the embedding.

Modelling conventions

* `sdk.Dec` is a `big.Int` holding the value scaled by `10^18`; it is modelled
  by `Dec` over `Int`.  `Mul` and `Quo` round as the sdk does
  (`chopPrecisionAndRound`, banker's rounding; `Quo` first truncates the
  `big.Int` quotient).  The sdk aborts the transaction (Go panic) when a `Dec`
  outgrows 315 bits, when a denomination is malformed and when `DecCoin.Add`
  meets two different denominations; those aborts are not part of the model,
  which describes the runs of the handler that return an `sdk.Result`.
* `DecCoin.Add` and `Event.AppendAttributes` have value receivers and return
  the new value.  The handler calls them as statements, so their results are
  dropped; the embedding keeps those statements as unused `let` bindings.
* The keeper (`x/swap/keeper`), the message types (`x/swap/types`) and
  `common.NativeToken` are not part of the sources at hand.  They are modelled
  from the specification; each such definition says so.
* The keeper state records every mutating keeper call in `calls`, so that
  "was invoked" and "in this order" can be stated.
-/

namespace Swap

/-! ## sdk.Dec -/

/-- Number of decimal places of `sdk.Dec`. -/
def Precision : Nat := 18

/-- The scaling factor `10^18` of `sdk.Dec`. -/
def precisionReuse : Int := 1000000000000000000

/-- Half of the scaling factor, `5 * 10^17`. -/
def fivePrecision : Int := 500000000000000000

/-- An `sdk.Dec`: the value times `10^18`, as an integer. -/
structure Dec where
  raw : Int
deriving DecidableEq, Repr

/-- The non-negative case of `chopPrecisionAndRound`: divide by `10^18`,
rounding half to even. -/
def chopPrecisionAndRoundNonneg (d : Int) : Int :=
  let quo := d / precisionReuse
  let rem := d % precisionReuse
  if rem = 0 then quo
  else if rem < fivePrecision then quo
  else if rem > fivePrecision then quo + 1
  else if quo % 2 = 0 then quo
  else quo + 1

/-- The sdk's `chopPrecisionAndRound`: a negative argument is negated, chopped
and negated back. -/
def chopPrecisionAndRound (d : Int) : Int :=
  if d < 0 then -(chopPrecisionAndRoundNonneg (-d)) else chopPrecisionAndRoundNonneg d

/-- The sdk's `ZeroDec()`. -/
def ZeroDec : Dec := ⟨0⟩

/-- The sdk's `NewDec(i)`: the integer `i` as a decimal. -/
def NewDec (i : Int) : Dec := ⟨i * precisionReuse⟩

namespace Dec

/-- The sdk's `Dec.IsZero`. -/
def IsZero (d : Dec) : Bool := decide (d.raw = 0)

/-- The sdk's `Dec.IsPositive`. -/
def IsPositive (d : Dec) : Bool := decide (0 < d.raw)

/-- The sdk's `Dec.GT`. -/
def GT (d d2 : Dec) : Bool := decide (d2.raw < d.raw)

/-- The sdk's `Dec.LT`. -/
def LT (d d2 : Dec) : Bool := decide (d.raw < d2.raw)

/-- The sdk's `Dec.Add`. -/
def Add (d d2 : Dec) : Dec := ⟨d.raw + d2.raw⟩

/-- The sdk's `Dec.Sub`. -/
def Sub (d d2 : Dec) : Dec := ⟨d.raw - d2.raw⟩

/-- The sdk's `Dec.Mul`: the product of the scaled integers, chopped and rounded. -/
def Mul (d d2 : Dec) : Dec := ⟨chopPrecisionAndRound (d.raw * d2.raw)⟩

/-- The sdk's `Dec.Quo`: the numerator is scaled twice, divided with the truncating
`big.Int.Quo`, then chopped and rounded. -/
def Quo (d d2 : Dec) : Dec :=
  ⟨chopPrecisionAndRound (Int.tdiv (d.raw * precisionReuse * precisionReuse) d2.raw)⟩

/-- The sdk's `Dec.String`: sign, integer digits, a point and exactly 18 fractional
digits. -/
def String (d : Dec) : String :=
  let bzInt := Nat.repr d.raw.natAbs
  let inputSize := bzInt.length
  let bzStr :=
    if inputSize ≤ Precision then
      "0." ++ (List.replicate (Precision - inputSize) '0').asString ++ bzInt
    else
      let decPointPlace := inputSize - Precision
      (bzInt.data.take decPointPlace).asString ++ "."
        ++ (bzInt.data.drop decPointPlace).asString
  if d.raw < 0 then "-" ++ bzStr else bzStr

end Dec

/-! ## sdk.DecCoin, events and results -/

/-- An `sdk.DecCoin`: a denomination with a decimal amount. -/
structure DecCoin where
  Denom : String
  Amount : Dec
deriving DecidableEq, Repr

/-- The sdk's `NewDecCoinFromDec`. -/
def NewDecCoinFromDec (denom : String) (amount : Dec) : DecCoin := ⟨denom, amount⟩

namespace DecCoin

/-- The sdk's `DecCoin.IsPositive`. -/
def IsPositive (coin : DecCoin) : Bool := coin.Amount.IsPositive

/-- The sdk's `DecCoin.Add` (value receiver): returns the sum as a new coin and
leaves the receiver as it was. -/
def Add (coin coinB : DecCoin) : DecCoin := ⟨coin.Denom, coin.Amount.Add coinB.Amount⟩

/-- The sdk's `DecCoin.String`: the amount followed by the denomination. -/
def String (coin : DecCoin) : String := coin.Amount.String ++ coin.Denom

end DecCoin

/-- An `sdk.Attribute`: a key and a value, both strings. -/
structure Attribute where
  Key : String
  Value : String
deriving DecidableEq, Repr

/-- The sdk's `NewAttribute`. -/
def NewAttribute (k v : String) : Attribute := ⟨k, v⟩

/-- An `sdk.Event`: a type and its attributes. -/
structure Event where
  Ty : String
  Attributes : List Attribute
deriving DecidableEq, Repr

/-- The sdk's `NewEvent`. -/
def NewEvent (ty : String) (attrs : List Attribute) : Event := ⟨ty, attrs⟩

/-- The sdk's `Event.AppendAttributes` (value receiver): returns the extended
event and leaves the receiver as it was. -/
def Event.AppendAttributes (e : Event) (attrs : List Attribute) : Event :=
  { e with Attributes := e.Attributes ++ attrs }

/-- The sdk's `EventTypeMessage`. -/
def EventTypeMessage : String := "message"

/-- The sdk's `AttributeKeyModule`. -/
def AttributeKeyModule : String := "module"

/-- The sdk's `CodeOK`. -/
def CodeOK : Nat := 0

/-- The sdk's `CodeInternal`. -/
def CodeInternal : Nat := 1

/-- The sdk's `CodeInsufficientCoins`. -/
def CodeInsufficientCoins : Nat := 10

/-- An `sdk.Result`, with the fields the handler sets; the others keep Go's zero
value. -/
structure Result where
  Code : Nat := CodeOK
  Log : String := ""
  Events : List Event := []
deriving DecidableEq, Repr

/-- The sdk's `Result.IsOK`. -/
def Result.IsOK (r : Result) : Bool := decide (r.Code = CodeOK)

/-! ## Types of the swap module -/

/-- Modelled from the spec: `common.NativeToken`, the fixed native (quote)
denomination; the spec derives the key `ABC_OKT` for the base token `ABC`. -/
def NativeToken : String := "OKT"

/-- Modelled from the spec: `types.ModuleName`, the name of the swap module. -/
def ModuleName : String := "swap"

/-- Modelled from the spec: the TokenPair pool record `types.SwapTokenPair`, with
the base reserve, the quote reserve and the name of the pool-share token. -/
structure SwapTokenPair where
  BasePooledCoin : DecCoin
  QuotePooledCoin : DecCoin
  PoolTokenName : String
deriving DecidableEq, Repr

/-- Go's zero value of `SwapTokenPair`. -/
def SwapTokenPair.zero : SwapTokenPair := ⟨⟨"", ZeroDec⟩, ⟨"", ZeroDec⟩, ""⟩

/-- Modelled from the spec: the text `SwapTokenPair.String` puts in a log. -/
def SwapTokenPair.String (p : SwapTokenPair) : String :=
  p.BasePooledCoin.String ++ "," ++ p.QuotePooledCoin.String ++ "," ++ p.PoolTokenName

/-- Modelled from the spec: the pool-share token record, with `Symbol` and
`TotalSupply`. -/
structure Token where
  Symbol : String
  TotalSupply : Dec
deriving DecidableEq, Repr

/-- Go's zero value of the token record, returned for an absent token. -/
def Token.zero : Token := ⟨"", ZeroDec⟩

/-- Modelled from the spec: the text `Token.String` puts in a log. -/
def Token.String (t : Token) : String := t.Symbol ++ "," ++ t.TotalSupply.String

/-- Modelled from the spec: the create-exchange request `types.MsgCreateExchange`,
carrying the base-token denomination. -/
structure MsgCreateExchange where
  Token : String
deriving DecidableEq, Repr

/-- Modelled from the spec: the add-liquidity request `types.MsgAddLiquidity`. -/
structure MsgAddLiquidity where
  MinLiquidity : Dec
  MaxBaseTokens : DecCoin
  QuoteTokens : DecCoin
  Deadline : Int
  Sender : String
deriving DecidableEq, Repr

/-- Modelled from the spec: `MsgAddLiquidity.GetSwapTokenPair`, the pair key
derived from `MaxBaseTokens.Denom` and the native denomination. -/
def MsgAddLiquidity.GetSwapTokenPair (msg : MsgAddLiquidity) : String :=
  msg.MaxBaseTokens.Denom ++ "_" ++ NativeToken

/-! ## The keeper and the context -/

/-- A mutating keeper call with its arguments, as recorded in the keeper state. -/
inductive Call where
  | SendCoinsToPool (coins : List DecCoin) (sender : String)
  | SetSwapTokenPair (tokenPair : String) (swapTokenPair : SwapTokenPair)
  | MintPoolCoinsToUser (coins : List DecCoin) (sender : String)
deriving DecidableEq, Repr

/-- Modelled from the spec: the state the `Keeper` of `x/swap/keeper` reads and
writes: which tokens exist, the pool records by pair key, the pool-share token
records by name, the balances by account and denomination, and the mutating
calls made so far. -/
structure Keeper where
  tokens : String → Bool
  pairs : String → Option SwapTokenPair
  poolTokens : String → Option Token
  balances : String → String → Dec
  calls : List Call

/-- The part of `sdk.Context` the handler uses: the block time as a Unix
timestamp, the events its event manager holds, and what the Token Transfer
Service (an external collaborator) answers on this call: the error returned by
the escrow transfer and by the mint, if any. -/
structure Context where
  blockTime : Int
  events : List Event
  sendErr : Option String
  mintErr : Option String

namespace Keeper

/-- Modelled from the spec: `Keeper.IsTokenExits`, token existence; an error when
the token is not a recognised asset. -/
def IsTokenExits (k : Keeper) (token : String) : Option String :=
  if k.tokens token then none else some ("token does not exist: " ++ token)

/-- Modelled from the spec: `Keeper.GetSwapTokenPair`, the pool record under a key
and an error when there is none. -/
def GetSwapTokenPair (k : Keeper) (tokenPair : String) : SwapTokenPair × Option String :=
  match k.pairs tokenPair with
  | some p => (p, none)
  | none => (SwapTokenPair.zero, some ("non-existent swapTokenPair: " ++ tokenPair))

/-- Modelled from the spec: `Keeper.SetSwapTokenPair`, store the record under the
key. -/
def SetSwapTokenPair (k : Keeper) (tokenPair : String) (swapTokenPair : SwapTokenPair) :
    Keeper :=
  { k with
    pairs := fun key => if key = tokenPair then some swapTokenPair else k.pairs key
    calls := k.calls ++ [Call.SetSwapTokenPair tokenPair swapTokenPair] }

/-- Modelled from the spec: `Keeper.GetPoolTokenInfo`, the pool-share token record
under a name, the empty record if absent. -/
def GetPoolTokenInfo (k : Keeper) (poolName : String) : Token :=
  (k.poolTokens poolName).getD Token.zero

/-- Balances after moving one coin from account `src` to account `dst`. -/
def moveCoin (src dst : String) (bal : String → String → Dec) (c : DecCoin) :
    String → String → Dec :=
  fun acc denom =>
    let b := bal acc denom
    let b := if acc = src ∧ denom = c.Denom then b.Sub c.Amount else b
    if acc = dst ∧ denom = c.Denom then b.Add c.Amount else b

/-- Modelled from the spec: `Keeper.SendCoinsToPool`, move the coins from the
account to the escrow of the pool (the module account), or return the error of
the Token Transfer Service and move nothing. -/
def SendCoinsToPool (k : Keeper) (ctx : Context) (coins : List DecCoin) (sender : String) :
    Keeper × Option String :=
  let k := { k with calls := k.calls ++ [Call.SendCoinsToPool coins sender] }
  match ctx.sendErr with
  | some err => (k, some err)
  | none => ({ k with balances := coins.foldl (moveCoin sender ModuleName) k.balances }, none)

/-- State after minting one coin to account `dst`: its balance and the total
supply of the token named by the denomination both grow by the amount. -/
def mintCoin (dst : String) (k : Keeper) (c : DecCoin) : Keeper :=
  { k with
    poolTokens := fun name =>
      if name = c.Denom then
        (k.poolTokens name).map fun t => { t with TotalSupply := t.TotalSupply.Add c.Amount }
      else k.poolTokens name
    balances := fun acc denom =>
      if acc = dst ∧ denom = c.Denom then (k.balances acc denom).Add c.Amount
      else k.balances acc denom }

/-- Modelled from the spec: `Keeper.MintPoolCoinsToUser`, mint the pool-share coins
to the account, or return the error of the Token Transfer Service and mint
nothing. -/
def MintPoolCoinsToUser (k : Keeper) (ctx : Context) (coins : List DecCoin)
    (sender : String) : Keeper × Option String :=
  let k := { k with calls := k.calls ++ [Call.MintPoolCoinsToUser coins sender] }
  match ctx.mintErr with
  | some err => (k, some err)
  | none => (coins.foldl (mintCoin sender) k, none)

end Keeper

/-! ## The handlers of `handler.go` -/

/-- The handler `handleMsgCreateExchange` of `handler.go`. -/
def handleMsgCreateExchange (ctx : Context) (k : Keeper) (msg : MsgCreateExchange) :
    Result × Keeper :=
  let event := NewEvent EventTypeMessage [NewAttribute AttributeKeyModule ModuleName]
  match k.IsTokenExits msg.Token with
  | some err => ({ Code := CodeInternal, Log := err }, k)
  | none =>
    let tokenPair := msg.Token ++ "_" ++ NativeToken
    match k.GetSwapTokenPair tokenPair with
    | (_, none) =>
      ({ Code := CodeInternal, Log := "Failed to create Exchange: exchange is exit" }, k)
    | (swapTokenPair, some _) =>
      let poolName := "OIP3-" ++ msg.Token
      let baseToken := NewDecCoinFromDec msg.Token ZeroDec
      let quoteToken := NewDecCoinFromDec NativeToken ZeroDec
      let poolToken := k.GetPoolTokenInfo poolName
      if poolToken.Symbol.length = 0 then
        ({ Code := CodeInternal, Log := "Failed to create Exchange: Pool Token not exit" }, k)
      else
        let swapTokenPair := { swapTokenPair with BasePooledCoin := baseToken }
        let swapTokenPair := { swapTokenPair with QuotePooledCoin := quoteToken }
        let swapTokenPair := { swapTokenPair with PoolTokenName := poolName }
        let k := k.SetSwapTokenPair tokenPair swapTokenPair
        -- the value returned by AppendAttributes is dropped
        let _ := event.AppendAttributes [NewAttribute "tokenpair" tokenPair]
        ({ Events := ctx.events ++ [event] }, k)

/-- The handler `handleMsgAddLiquidity` of `handler.go`. -/
def handleMsgAddLiquidity (ctx : Context) (k : Keeper) (msg : MsgAddLiquidity) :
    Result × Keeper :=
  let event := NewEvent EventTypeMessage [NewAttribute AttributeKeyModule ModuleName]
  if msg.Deadline < ctx.blockTime then
    ({ Code := CodeInternal, Log := "blockTime exceeded deadline" }, k)
  else
    match k.GetSwapTokenPair msg.GetSwapTokenPair with
    | (_, some err) => ({ Code := CodeInternal, Log := err }, k)
    | (swapTokenPair, none) =>
      let baseTokens := NewDecCoinFromDec msg.MaxBaseTokens.Denom ZeroDec
      let poolToken := k.GetPoolTokenInfo swapTokenPair.PoolTokenName
      -- the three-way branch on the reserves: a result to return at once, or the
      -- base tokens and the liquidity to go on with
      let branch : Result ⊕ (DecCoin × Dec) :=
        if swapTokenPair.QuotePooledCoin.Amount.IsZero
            && swapTokenPair.BasePooledCoin.Amount.IsZero then
          Sum.inr ({ baseTokens with Amount := msg.MaxBaseTokens.Amount }, NewDec 1)
        else if swapTokenPair.BasePooledCoin.IsPositive
            && swapTokenPair.QuotePooledCoin.IsPositive then
          let baseTokens := { baseTokens with
            Amount := (msg.QuoteTokens.Amount.Mul swapTokenPair.BasePooledCoin.Amount).Quo
              swapTokenPair.QuotePooledCoin.Amount }
          if poolToken.TotalSupply.IsZero then
            Sum.inl { Code := CodeInternal,
                      Log := "unexpected totalSupply in poolToken " ++ poolToken.String }
          else
            Sum.inr (baseTokens,
              (msg.QuoteTokens.Amount.Quo swapTokenPair.QuotePooledCoin.Amount).Mul
                poolToken.TotalSupply)
        else
          Sum.inl { Code := CodeInternal,
                    Log := "invalid swapTokenPair " ++ swapTokenPair.String }
      match branch with
      | Sum.inl r => (r, k)
      | Sum.inr (baseTokens, liquidity) =>
        if baseTokens.Amount.GT msg.MaxBaseTokens.Amount then
          ({ Code := CodeInternal, Log := "MaxBaseTokens is too high" }, k)
        else if liquidity.LT msg.MinLiquidity then
          ({ Code := CodeInternal, Log := "MinLiquidity is too low" }, k)
        else
          -- transfer coins
          let coins := [msg.QuoteTokens, baseTokens]
          match k.SendCoinsToPool ctx coins msg.Sender with
          | (k, some _) => ({ Code := CodeInsufficientCoins, Log := "insufficient Coins" }, k)
          | (k, none) =>
            -- update swapTokenPair: the values returned by Add are dropped
            let _ := swapTokenPair.QuotePooledCoin.Add msg.QuoteTokens
            let _ := swapTokenPair.BasePooledCoin.Add baseTokens
            let k := k.SetSwapTokenPair msg.GetSwapTokenPair swapTokenPair
            -- update poolToken
            let poolCoins := NewDecCoinFromDec poolToken.Symbol liquidity
            match k.MintPoolCoinsToUser ctx [poolCoins] msg.Sender with
            | (k, some _) => ({ Code := CodeInternal, Log := "fail to mint poolCoins" }, k)
            | (k, none) =>
              -- the values returned by AppendAttributes are dropped
              let _ := event.AppendAttributes [NewAttribute "liquidity" liquidity.String]
              let _ := event.AppendAttributes [NewAttribute "baseTokens" baseTokens.String]
              ({ Events := ctx.events ++ [event] }, k)

/-- A message of the swap module. -/
inductive Msg where
  | AddLiquidity (msg : MsgAddLiquidity)
  | CreateExchange (msg : MsgCreateExchange)
deriving DecidableEq, Repr

/-- The dispatch of `NewHandler` for the two message types of the module: a fresh
event manager, then the handler of the message. -/
def NewHandler (ctx : Context) (k : Keeper) : Msg → Result × Keeper
  | Msg.AddLiquidity msg => handleMsgAddLiquidity { ctx with events := [] } k msg
  | Msg.CreateExchange msg => handleMsgCreateExchange { ctx with events := [] } k msg

/-- The keeper state after handling a sequence of messages, each in its own
context; the state each handler leaves is kept whether its result is a success or
a failure. -/
def runMsgs (k : Keeper) : List (Context × Msg) → Keeper
  | [] => k
  | (ctx, msg) :: rest => runMsgs (NewHandler ctx k msg).2 rest

/-! ## Concrete states used in the examples -/

/-- A state with the token `ABC`, the pool-share token `OIP3-ABC` with the given
total supply, no pool record, no balance and no call. -/
def exampleKeeper (totalSupply : Dec) : Keeper where
  tokens := fun t => t == "ABC"
  pairs := fun _ => none
  poolTokens := fun n => if n = "OIP3-ABC" then some ⟨"OIP3-ABC", totalSupply⟩ else none
  balances := fun _ _ => ZeroDec
  calls := []

/-- The state `exampleKeeper` with a pool record for `ABC_OKT` holding the given
reserves. -/
def examplePool (base quote totalSupply : Dec) : Keeper :=
  { exampleKeeper totalSupply with
    pairs := fun key =>
      if key = "ABC_OKT" then some ⟨⟨"ABC", base⟩, ⟨"OKT", quote⟩, "OIP3-ABC"⟩ else none }

/-- A context at block time `t` in which transfer and mint succeed. -/
def exampleCtx (t : Int) : Context := ⟨t, [], none, none⟩

/-- An add-liquidity request for the pair `ABC_OKT` from `alice`. -/
def exampleAdd (quote maxBase minLiquidity : Dec) (deadline : Int) : MsgAddLiquidity :=
  ⟨minLiquidity, ⟨"ABC", maxBase⟩, ⟨"OKT", quote⟩, deadline, "alice"⟩

/-- The state after creating the exchange for `ABC` in `exampleKeeper`. -/
def exampleCreated : Keeper :=
  (handleMsgCreateExchange (exampleCtx 5) (exampleKeeper ZeroDec) ⟨"ABC"⟩).2

/-! ## Predicates used in the statements -/

/-- The checks of `handleMsgAddLiquidity` (lines 88 to 133 of `handler.go`) all pass
for the request, on the pool record `pair`, with `base` the base-token amount and
`liquidity` the liquidity the handler computes: the deadline is not exceeded, the
record is stored under the key of the request, the reserves select the bootstrap
or the proportional branch (with a non-zero total supply), and both bounds
hold. -/
def Validated (ctx : Context) (k : Keeper) (msg : MsgAddLiquidity) (pair : SwapTokenPair)
    (base liquidity : Dec) : Prop :=
  ctx.blockTime ≤ msg.Deadline ∧
  k.pairs msg.GetSwapTokenPair = some pair ∧
  ((pair.QuotePooledCoin.Amount.IsZero = true ∧ pair.BasePooledCoin.Amount.IsZero = true ∧
      base = msg.MaxBaseTokens.Amount ∧ liquidity = NewDec 1) ∨
   (pair.BasePooledCoin.IsPositive = true ∧ pair.QuotePooledCoin.IsPositive = true ∧
      (k.GetPoolTokenInfo pair.PoolTokenName).TotalSupply.IsZero = false ∧
      base = (msg.QuoteTokens.Amount.Mul pair.BasePooledCoin.Amount).Quo
        pair.QuotePooledCoin.Amount ∧
      liquidity = (msg.QuoteTokens.Amount.Quo pair.QuotePooledCoin.Amount).Mul
        (k.GetPoolTokenInfo pair.PoolTokenName).TotalSupply)) ∧
  base.GT msg.MaxBaseTokens.Amount = false ∧
  liquidity.LT msg.MinLiquidity = false

/-- The three keeper calls of the commit sequence of `handleMsgAddLiquidity`, in
the order of the source: escrow transfer, pool-record write, mint. -/
def commitCalls (k : Keeper) (msg : MsgAddLiquidity) (pair : SwapTokenPair)
    (base liquidity : Dec) : List Call :=
  [Call.SendCoinsToPool [msg.QuoteTokens, ⟨msg.MaxBaseTokens.Denom, base⟩] msg.Sender,
   Call.SetSwapTokenPair msg.GetSwapTokenPair pair,
   Call.MintPoolCoinsToUser
     [⟨(k.GetPoolTokenInfo pair.PoolTokenName).Symbol, liquidity⟩] msg.Sender]

/-- Both reserves of a pool record are zero, or both are strictly positive. -/
def ReservesOk (p : SwapTokenPair) : Prop :=
  (p.BasePooledCoin.Amount.IsZero = true ∧ p.QuotePooledCoin.Amount.IsZero = true) ∨
  (p.BasePooledCoin.IsPositive = true ∧ p.QuotePooledCoin.IsPositive = true)

/-- Every stored pool record satisfies `ReservesOk`. -/
def ReserveInvariant (k : Keeper) : Prop :=
  ∀ key p, k.pairs key = some p → ReservesOk p

/-- The results of handling the same create-exchange request once more in each of
the given contexts, in order, together with the state reached. -/
def createAgain (msg : MsgCreateExchange) : Keeper → List Context → List Result × Keeper
  | k, [] => ([], k)
  | k, ctx :: rest =>
    ((handleMsgCreateExchange ctx k msg).1 ::
        (createAgain msg (handleMsgCreateExchange ctx k msg).2 rest).1,
      (createAgain msg (handleMsgCreateExchange ctx k msg).2 rest).2)

/-- One of the checks of `handleMsgAddLiquidity` (lines 88 to 133 of `handler.go`)
fails for the request: the deadline is exceeded, no pool record is stored under
the key, or the stored record has inconsistent reserves, positive reserves with a
zero total supply, a required base amount above `MaxBaseTokens.Amount`, or a
liquidity below `MinLiquidity` (1 in the bootstrap branch). -/
def ValidationFailure (ctx : Context) (k : Keeper) (msg : MsgAddLiquidity) : Prop :=
  msg.Deadline < ctx.blockTime ∨
  k.pairs msg.GetSwapTokenPair = none ∨
  ∃ pair, k.pairs msg.GetSwapTokenPair = some pair ∧
    ((¬ (pair.QuotePooledCoin.Amount.IsZero = true ∧
          pair.BasePooledCoin.Amount.IsZero = true) ∧
      ¬ (pair.BasePooledCoin.IsPositive = true ∧ pair.QuotePooledCoin.IsPositive = true)) ∨
     (pair.BasePooledCoin.IsPositive = true ∧ pair.QuotePooledCoin.IsPositive = true ∧
      (k.GetPoolTokenInfo pair.PoolTokenName).TotalSupply.IsZero = true) ∨
     (pair.BasePooledCoin.IsPositive = true ∧ pair.QuotePooledCoin.IsPositive = true ∧
      ((msg.QuoteTokens.Amount.Mul pair.BasePooledCoin.Amount).Quo
        pair.QuotePooledCoin.Amount).GT msg.MaxBaseTokens.Amount = true) ∨
     (pair.QuotePooledCoin.Amount.IsZero = true ∧ pair.BasePooledCoin.Amount.IsZero = true ∧
      (NewDec 1).LT msg.MinLiquidity = true) ∨
     (pair.BasePooledCoin.IsPositive = true ∧ pair.QuotePooledCoin.IsPositive = true ∧
      ((msg.QuoteTokens.Amount.Quo pair.QuotePooledCoin.Amount).Mul
        (k.GetPoolTokenInfo pair.PoolTokenName).TotalSupply).LT msg.MinLiquidity = true))

/-! ## Theorems -/

theorem mintCoin_foldl_pairs (dst : String) (coins : List DecCoin) (k : Keeper) :
    (coins.foldl (Keeper.mintCoin dst) k).pairs = k.pairs := by
  induction coins generalizing k with
  | nil => rfl
  | cons c cs ih => simp only [List.foldl_cons, ih]; rfl

theorem mintCoin_foldl_calls (dst : String) (coins : List DecCoin) (k : Keeper) :
    (coins.foldl (Keeper.mintCoin dst) k).calls = k.calls := by
  induction coins generalizing k with
  | nil => rfl
  | cons c cs ih => simp only [List.foldl_cons, ih]; rfl

/-- Whatever its result, `handleMsgAddLiquidity` leaves the record under every key
as it was: the only write stores the record that was read, under the key it was
read from. -/
theorem handleMsgAddLiquidity_pairs (ctx : Context) (k : Keeper) (msg : MsgAddLiquidity)
    (key : String) : (handleMsgAddLiquidity ctx k msg).2.pairs key = k.pairs key := by
  unfold handleMsgAddLiquidity
  cases hp : k.pairs msg.GetSwapTokenPair <;> cases hs : ctx.sendErr <;>
    cases hm : ctx.mintErr <;>
    simp [Keeper.GetSwapTokenPair, hp, hs, hm, Keeper.SendCoinsToPool,
      Keeper.MintPoolCoinsToUser, Keeper.SetSwapTokenPair, Keeper.mintCoin]
  all_goals repeat' split
  all_goals simp_all

theorem isPositive_not_isZero (d : Dec) (h : d.IsPositive = true) : d.IsZero = false := by
  simp only [Dec.IsPositive, Dec.IsZero, decide_eq_true_eq, decide_eq_false_iff_not] at *
  omega

/-- When all checks pass and both collaborators succeed, the handler returns
success with the module event and performs the three commit calls. -/
theorem add_of_validated_ok (ctx : Context) (k : Keeper) (msg : MsgAddLiquidity)
    (pair : SwapTokenPair) (base liquidity : Dec)
    (hv : Validated ctx k msg pair base liquidity)
    (hsend : ctx.sendErr = none) (hmint : ctx.mintErr = none) :
    (handleMsgAddLiquidity ctx k msg).1 =
      { Events := ctx.events ++
          [NewEvent EventTypeMessage [NewAttribute AttributeKeyModule ModuleName]] } ∧
    (handleMsgAddLiquidity ctx k msg).2.calls =
      k.calls ++ commitCalls k msg pair base liquidity := by
  obtain ⟨hdl, hpool, hbr, hgt, hlt⟩ := hv
  have h1 : ¬ msg.Deadline < ctx.blockTime := not_lt.mpr hdl
  rcases hbr with ⟨hq, hb, rfl, rfl⟩ | ⟨hb, hq, hts, rfl, rfl⟩
  · simp [handleMsgAddLiquidity, Keeper.GetSwapTokenPair, hpool, h1, hq, hb, hgt, hlt,
      Keeper.SendCoinsToPool, hsend, Keeper.MintPoolCoinsToUser, hmint,
      Keeper.SetSwapTokenPair, Keeper.mintCoin, NewDecCoinFromDec, commitCalls]
  · simp only [DecCoin.IsPositive] at hb hq
    have hq0 := isPositive_not_isZero _ hq
    simp [handleMsgAddLiquidity, Keeper.GetSwapTokenPair, hpool, h1, hq, hb, hq0, hts, hgt,
      hlt, Keeper.SendCoinsToPool, hsend, Keeper.MintPoolCoinsToUser, hmint,
      Keeper.SetSwapTokenPair, Keeper.mintCoin, NewDecCoinFromDec, commitCalls,
      DecCoin.IsPositive]

/-- When all checks pass and the escrow transfer fails, the handler returns the
insufficient-coins failure; the transfer is the only call made and nothing else
changes. -/
theorem add_of_validated_sendErr (ctx : Context) (k : Keeper) (msg : MsgAddLiquidity)
    (pair : SwapTokenPair) (base liquidity : Dec) (e : String)
    (hv : Validated ctx k msg pair base liquidity)
    (hsend : ctx.sendErr = some e) :
    handleMsgAddLiquidity ctx k msg =
      ({ Code := CodeInsufficientCoins, Log := "insufficient Coins" },
       { k with calls := k.calls ++
          [Call.SendCoinsToPool [msg.QuoteTokens, ⟨msg.MaxBaseTokens.Denom, base⟩]
            msg.Sender] }) := by
  obtain ⟨hdl, hpool, hbr, hgt, hlt⟩ := hv
  have h1 : ¬ msg.Deadline < ctx.blockTime := not_lt.mpr hdl
  rcases hbr with ⟨hq, hb, rfl, rfl⟩ | ⟨hb, hq, hts, rfl, rfl⟩
  · simp [handleMsgAddLiquidity, Keeper.GetSwapTokenPair, hpool, h1, hq, hb, hgt, hlt,
      Keeper.SendCoinsToPool, hsend, NewDecCoinFromDec]
  · simp only [DecCoin.IsPositive] at hb hq
    have hq0 := isPositive_not_isZero _ hq
    simp [handleMsgAddLiquidity, Keeper.GetSwapTokenPair, hpool, h1, hq, hb, hq0, hts, hgt,
      hlt, Keeper.SendCoinsToPool, hsend, NewDecCoinFromDec, DecCoin.IsPositive]

/-- When all checks pass, the escrow transfer succeeds and the mint fails, the
handler returns an internal failure after the three commit calls. -/
theorem add_of_validated_mintErr (ctx : Context) (k : Keeper) (msg : MsgAddLiquidity)
    (pair : SwapTokenPair) (base liquidity : Dec) (e : String)
    (hv : Validated ctx k msg pair base liquidity)
    (hsend : ctx.sendErr = none) (hmint : ctx.mintErr = some e) :
    (handleMsgAddLiquidity ctx k msg).1 =
      { Code := CodeInternal, Log := "fail to mint poolCoins" } ∧
    (handleMsgAddLiquidity ctx k msg).2.calls =
      k.calls ++ commitCalls k msg pair base liquidity := by
  obtain ⟨hdl, hpool, hbr, hgt, hlt⟩ := hv
  have h1 : ¬ msg.Deadline < ctx.blockTime := not_lt.mpr hdl
  rcases hbr with ⟨hq, hb, rfl, rfl⟩ | ⟨hb, hq, hts, rfl, rfl⟩
  · simp [handleMsgAddLiquidity, Keeper.GetSwapTokenPair, hpool, h1, hq, hb, hgt, hlt,
      Keeper.SendCoinsToPool, hsend, Keeper.MintPoolCoinsToUser, hmint,
      Keeper.SetSwapTokenPair, NewDecCoinFromDec, commitCalls]
  · simp only [DecCoin.IsPositive] at hb hq
    have hq0 := isPositive_not_isZero _ hq
    simp [handleMsgAddLiquidity, Keeper.GetSwapTokenPair, hpool, h1, hq, hb, hq0, hts, hgt,
      hlt, Keeper.SendCoinsToPool, hsend, Keeper.MintPoolCoinsToUser, hmint,
      Keeper.SetSwapTokenPair, NewDecCoinFromDec, commitCalls, DecCoin.IsPositive]

/-- The handler either finds the checks passed, for some record and amounts, or
returns an internal failure and leaves the state as it was. -/
theorem add_validated_or_rejected (ctx : Context) (k : Keeper) (msg : MsgAddLiquidity) :
    (∃ pair base liquidity, Validated ctx k msg pair base liquidity) ∨
    ((handleMsgAddLiquidity ctx k msg).1.Code = CodeInternal ∧
      (handleMsgAddLiquidity ctx k msg).1.Events = [] ∧
      (handleMsgAddLiquidity ctx k msg).2 = k) := by
  by_cases hd : msg.Deadline < ctx.blockTime
  · right; simp [handleMsgAddLiquidity, hd]
  cases hp : k.pairs msg.GetSwapTokenPair with
  | none => right; simp [handleMsgAddLiquidity, hd, Keeper.GetSwapTokenPair, hp]
  | some pair =>
    by_cases hz : pair.QuotePooledCoin.Amount.IsZero = true ∧
        pair.BasePooledCoin.Amount.IsZero = true
    · by_cases hlt : (NewDec 1).LT msg.MinLiquidity = true
      · right
        simp [handleMsgAddLiquidity, hd, Keeper.GetSwapTokenPair, hp, hz, hlt, Dec.GT]
      · left
        refine ⟨pair, msg.MaxBaseTokens.Amount, NewDec 1, not_lt.mp hd, hp,
          Or.inl ⟨hz.1, hz.2, rfl, rfl⟩, by simp [Dec.GT], by simpa using hlt⟩
    · by_cases hpos : pair.BasePooledCoin.IsPositive = true ∧
          pair.QuotePooledCoin.IsPositive = true
      · by_cases hts : (k.GetPoolTokenInfo pair.PoolTokenName).TotalSupply.IsZero = true
        · right
          simp [handleMsgAddLiquidity, hd, Keeper.GetSwapTokenPair, hp, hz, hpos, hts]
        · by_cases hgt : ((msg.QuoteTokens.Amount.Mul pair.BasePooledCoin.Amount).Quo
              pair.QuotePooledCoin.Amount).GT msg.MaxBaseTokens.Amount = true
          · right
            simp [handleMsgAddLiquidity, hd, Keeper.GetSwapTokenPair, hp, hz, hpos, hts, hgt,
              NewDecCoinFromDec]
          · by_cases hlt : ((msg.QuoteTokens.Amount.Quo pair.QuotePooledCoin.Amount).Mul
                (k.GetPoolTokenInfo pair.PoolTokenName).TotalSupply).LT msg.MinLiquidity = true
            · right
              simp [handleMsgAddLiquidity, hd, Keeper.GetSwapTokenPair, hp, hz, hpos, hts,
                hgt, hlt, NewDecCoinFromDec]
            · left
              exact ⟨pair, _, _, not_lt.mp hd, hp,
                Or.inr ⟨hpos.1, hpos.2, by simpa using hts, rfl, rfl⟩,
                by simpa using hgt, by simpa using hlt⟩
      · right
        simp [handleMsgAddLiquidity, hd, Keeper.GetSwapTokenPair, hp, hz, hpos]

/-- A successful add-liquidity run passed all checks, and both collaborators
succeeded. -/
theorem add_ok_validated (ctx : Context) (k : Keeper) (msg : MsgAddLiquidity)
    (hok : (handleMsgAddLiquidity ctx k msg).1.IsOK = true) :
    ∃ pair base liquidity, Validated ctx k msg pair base liquidity ∧
      ctx.sendErr = none ∧ ctx.mintErr = none := by
  rcases add_validated_or_rejected ctx k msg with ⟨pair, base, liquidity, hv⟩ | ⟨hc, _, _⟩
  · refine ⟨pair, base, liquidity, hv, ?_⟩
    cases hs : ctx.sendErr with
    | some e =>
      rw [add_of_validated_sendErr ctx k msg pair base liquidity e hv hs] at hok
      simp [Result.IsOK, CodeOK, CodeInsufficientCoins] at hok
    | none =>
      cases hm : ctx.mintErr with
      | some e =>
        rw [(add_of_validated_mintErr ctx k msg pair base liquidity e hv hs hm).1] at hok
        simp [Result.IsOK, CodeOK, CodeInternal] at hok
      | none => exact ⟨rfl, rfl⟩
  · simp [Result.IsOK, hc, CodeOK, CodeInternal] at hok

/-- The record and amounts for which the checks pass are unique. -/
theorem validated_unique (ctx : Context) (k : Keeper) (msg : MsgAddLiquidity)
    (p p2 : SwapTokenPair) (b l b2 l2 : Dec)
    (h : Validated ctx k msg p b l) (h2 : Validated ctx k msg p2 b2 l2) :
    p = p2 ∧ b = b2 ∧ l = l2 := by
  obtain ⟨_, hp, hbr, _, _⟩ := h
  obtain ⟨_, hp2, hbr2, _, _⟩ := h2
  have hpp : p = p2 := by rw [hp] at hp2; exact Option.some.inj hp2
  subst hpp
  refine ⟨rfl, ?_⟩
  rcases hbr with ⟨hq, hb, rfl, rfl⟩ | ⟨hb, hq, hts, rfl, rfl⟩ <;>
    rcases hbr2 with ⟨hq2, hb2, rfl, rfl⟩ | ⟨hb2, hq2, hts2, rfl, rfl⟩
  · exact ⟨rfl, rfl⟩
  · have := isPositive_not_isZero _ hq2
    simp_all
  · have := isPositive_not_isZero _ hq
    simp_all
  · exact ⟨rfl, rfl⟩

/-- A text that starts with another letter than `b` is not the deadline log. -/
theorem ne_deadline_log_of_head (s : String) (c : Char) (hc : s.data.head? = some c)
    (hcb : c ≠ 'b') : s ≠ "blockTime exceeded deadline" := by
  intro h
  rw [h] at hc
  have h2 : some 'b' = some c := hc
  exact hcb (Option.some.inj h2).symm

/-- When the deadline is not exceeded, the log of the result is not the deadline
log. -/
theorem add_log_ne_deadline (ctx : Context) (k : Keeper) (msg : MsgAddLiquidity)
    (hd : ¬ msg.Deadline < ctx.blockTime) :
    (handleMsgAddLiquidity ctx k msg).1.Log ≠ "blockTime exceeded deadline" := by
  have e1 : ∀ s : String, "non-existent swapTokenPair: " ++ s ≠ "blockTime exceeded deadline" :=
    fun s => ne_deadline_log_of_head _ 'n' rfl (by decide)
  have e2 : ∀ s : String,
      "unexpected totalSupply in poolToken " ++ s ≠ "blockTime exceeded deadline" :=
    fun s => ne_deadline_log_of_head _ 'u' rfl (by decide)
  have e3 : ∀ s : String, "invalid swapTokenPair " ++ s ≠ "blockTime exceeded deadline" :=
    fun s => ne_deadline_log_of_head _ 'i' rfl (by decide)
  have hval : ∀ pair base liquidity, Validated ctx k msg pair base liquidity →
      (handleMsgAddLiquidity ctx k msg).1.Log ≠ "blockTime exceeded deadline" := by
    intro pair base liquidity hv
    cases hs : ctx.sendErr with
    | some e =>
      rw [add_of_validated_sendErr ctx k msg pair base liquidity e hv hs]
      show "insufficient Coins" ≠ "blockTime exceeded deadline"
      decide
    | none =>
      cases hm : ctx.mintErr with
      | some e =>
        rw [(add_of_validated_mintErr ctx k msg pair base liquidity e hv hs hm).1]
        decide
      | none =>
        rw [(add_of_validated_ok ctx k msg pair base liquidity hv hs hm).1]
        show "" ≠ "blockTime exceeded deadline"
        decide
  cases hp : k.pairs msg.GetSwapTokenPair with
  | none => simp [handleMsgAddLiquidity, hd, Keeper.GetSwapTokenPair, hp, e1]
  | some pair =>
    by_cases hz : pair.QuotePooledCoin.Amount.IsZero = true ∧
        pair.BasePooledCoin.Amount.IsZero = true
    · by_cases hlt : (NewDec 1).LT msg.MinLiquidity = true
      · simp [handleMsgAddLiquidity, hd, Keeper.GetSwapTokenPair, hp, hz, hlt, Dec.GT]
      · exact hval pair msg.MaxBaseTokens.Amount (NewDec 1) ⟨not_lt.mp hd, hp,
          Or.inl ⟨hz.1, hz.2, rfl, rfl⟩, by simp [Dec.GT], by simpa using hlt⟩
    · by_cases hpos : pair.BasePooledCoin.IsPositive = true ∧
          pair.QuotePooledCoin.IsPositive = true
      · by_cases hts : (k.GetPoolTokenInfo pair.PoolTokenName).TotalSupply.IsZero = true
        · simp [handleMsgAddLiquidity, hd, Keeper.GetSwapTokenPair, hp, hz, hpos, hts, e2]
        · by_cases hgt : ((msg.QuoteTokens.Amount.Mul pair.BasePooledCoin.Amount).Quo
              pair.QuotePooledCoin.Amount).GT msg.MaxBaseTokens.Amount = true
          · simp [handleMsgAddLiquidity, hd, Keeper.GetSwapTokenPair, hp, hz, hpos, hts, hgt,
              NewDecCoinFromDec]
          · by_cases hlt : ((msg.QuoteTokens.Amount.Quo pair.QuotePooledCoin.Amount).Mul
                (k.GetPoolTokenInfo pair.PoolTokenName).TotalSupply).LT msg.MinLiquidity = true
            · simp [handleMsgAddLiquidity, hd, Keeper.GetSwapTokenPair, hp, hz, hpos, hts,
                hgt, hlt, NewDecCoinFromDec]
            · exact hval pair _ _ ⟨not_lt.mp hd, hp,
                Or.inr ⟨hpos.1, hpos.2, by simpa using hts, rfl, rfl⟩,
                by simpa using hgt, by simpa using hlt⟩
      · simp [handleMsgAddLiquidity, hd, Keeper.GetSwapTokenPair, hp, hz, hpos, e3]

/-! ### C1: the stored reserves after a successful add-liquidity -/

/-- C1 (defect of the code): after creating the pool for `ABC` and adding liquidity
with quote 10, max base 10 and min liquidity 1 to the empty pool, the handler
returns success, having sent 10 `OKT` and 10 `ABC` to escrow and minted 1 share,
but the record it stores under `ABC_OKT` still has the reserves (base 0, quote 0)
and not (base 10, quote 10): the sums computed by `DecCoin.Add` are dropped. -/
theorem C1_stored_reserves_not_increased :
    exampleCreated.pairs "ABC_OKT" =
      some ⟨⟨"ABC", ZeroDec⟩, ⟨"OKT", ZeroDec⟩, "OIP3-ABC"⟩ ∧
    (handleMsgAddLiquidity (exampleCtx 5) exampleCreated
      (exampleAdd (NewDec 10) (NewDec 10) (NewDec 1) 100)).1.IsOK = true ∧
    (handleMsgAddLiquidity (exampleCtx 5) exampleCreated
      (exampleAdd (NewDec 10) (NewDec 10) (NewDec 1) 100)).2.calls =
      exampleCreated.calls ++
        [Call.SendCoinsToPool [⟨"OKT", NewDec 10⟩, ⟨"ABC", NewDec 10⟩] "alice",
         Call.SetSwapTokenPair "ABC_OKT" ⟨⟨"ABC", ZeroDec⟩, ⟨"OKT", ZeroDec⟩, "OIP3-ABC"⟩,
         Call.MintPoolCoinsToUser [⟨"OIP3-ABC", NewDec 1⟩] "alice"] ∧
    (handleMsgAddLiquidity (exampleCtx 5) exampleCreated
      (exampleAdd (NewDec 10) (NewDec 10) (NewDec 1) 100)).2.pairs "ABC_OKT" =
      some ⟨⟨"ABC", ZeroDec⟩, ⟨"OKT", ZeroDec⟩, "OIP3-ABC"⟩ ∧
    (handleMsgAddLiquidity (exampleCtx 5) exampleCreated
      (exampleAdd (NewDec 10) (NewDec 10) (NewDec 1) 100)).2.pairs "ABC_OKT" ≠
      some ⟨⟨"ABC", NewDec 10⟩, ⟨"OKT", NewDec 10⟩, "OIP3-ABC"⟩ := by
  decide

/-! ### C2: the proportional branch -/

/-- C2: when an add-liquidity request succeeds on a pool whose base and quote
reserves are both strictly positive, the coins sent to escrow are `QuoteTokens`
and `QuoteTokens.Amount.Mul(base reserve).Quo(quote reserve)` of the base
denomination, and the liquidity minted to the sender is
`QuoteTokens.Amount.Quo(quote reserve).Mul(TotalSupply)`, in the 18-decimal
arithmetic; for the reserves (base 100, quote 50), total supply 1000 and quote 25
these are exactly 50 and 500. -/
theorem C2_proportional_amounts (ctx : Context) (k : Keeper) (msg : MsgAddLiquidity)
    (pair : SwapTokenPair)
    (hpool : k.pairs msg.GetSwapTokenPair = some pair)
    (hb : pair.BasePooledCoin.IsPositive = true)
    (hq : pair.QuotePooledCoin.IsPositive = true)
    (hok : (handleMsgAddLiquidity ctx k msg).1.IsOK = true) :
    (handleMsgAddLiquidity ctx k msg).2.calls = k.calls ++
      [Call.SendCoinsToPool
          [msg.QuoteTokens,
           ⟨msg.MaxBaseTokens.Denom,
            (msg.QuoteTokens.Amount.Mul pair.BasePooledCoin.Amount).Quo
              pair.QuotePooledCoin.Amount⟩] msg.Sender,
       Call.SetSwapTokenPair msg.GetSwapTokenPair pair,
       Call.MintPoolCoinsToUser
          [⟨(k.GetPoolTokenInfo pair.PoolTokenName).Symbol,
            (msg.QuoteTokens.Amount.Quo pair.QuotePooledCoin.Amount).Mul
              (k.GetPoolTokenInfo pair.PoolTokenName).TotalSupply⟩] msg.Sender] ∧
    ((NewDec 25).Mul (NewDec 100)).Quo (NewDec 50) = NewDec 50 ∧
    ((NewDec 25).Quo (NewDec 50)).Mul (NewDec 1000) = NewDec 500 := by
  refine ⟨?_, by decide, by decide⟩
  obtain ⟨p, base, liquidity, hv, hs, hm⟩ := add_ok_validated ctx k msg hok
  have hcalls := (add_of_validated_ok ctx k msg p base liquidity hv hs hm).2
  obtain ⟨_, hp, hbr, _, _⟩ := hv
  have hpp : p = pair := by rw [hpool] at hp; exact (Option.some.inj hp).symm
  subst hpp
  rcases hbr with ⟨hq0, _, _, _⟩ | ⟨_, _, _, rfl, rfl⟩
  · have := isPositive_not_isZero _ hq
    simp_all
  · simpa [commitCalls] using hcalls

/-- Witness of C2: the pool (base 100, quote 50) with total supply 1000 and the
request quote 25, max base 50, min liquidity 500. -/
theorem C2_proportional_amounts_witness :
    (handleMsgAddLiquidity (exampleCtx 5)
      (examplePool (NewDec 100) (NewDec 50) (NewDec 1000))
      (exampleAdd (NewDec 25) (NewDec 50) (NewDec 500) 100)).2.calls =
      [Call.SendCoinsToPool [⟨"OKT", NewDec 25⟩, ⟨"ABC", NewDec 50⟩] "alice",
       Call.SetSwapTokenPair "ABC_OKT"
          ⟨⟨"ABC", NewDec 100⟩, ⟨"OKT", NewDec 50⟩, "OIP3-ABC"⟩,
       Call.MintPoolCoinsToUser [⟨"OIP3-ABC", NewDec 500⟩] "alice"] :=
  (C2_proportional_amounts (exampleCtx 5)
    (examplePool (NewDec 100) (NewDec 50) (NewDec 1000))
    (exampleAdd (NewDec 25) (NewDec 50) (NewDec 500) 100)
    ⟨⟨"ABC", NewDec 100⟩, ⟨"OKT", NewDec 50⟩, "OIP3-ABC"⟩
    (by decide) (by decide) (by decide) (by decide)).1.trans (by decide)

/-! ### C3: the bootstrap branch -/

/-- C3: a request that passes the deadline check on an existing pool whose
reserves are both zero, with `MinLiquidity` at most 1 and with transfer and mint
succeeding, returns success; the coins sent to escrow are `QuoteTokens` and
exactly `MaxBaseTokens.Amount` of the base denomination, and the liquidity minted
to the sender is exactly 1, whatever the two amounts are. -/
theorem C3_bootstrap (ctx : Context) (k : Keeper) (msg : MsgAddLiquidity)
    (pair : SwapTokenPair)
    (hdl : ctx.blockTime ≤ msg.Deadline)
    (hpool : k.pairs msg.GetSwapTokenPair = some pair)
    (hq : pair.QuotePooledCoin.Amount.IsZero = true)
    (hb : pair.BasePooledCoin.Amount.IsZero = true)
    (hmin : msg.MinLiquidity.raw ≤ (NewDec 1).raw)
    (hsend : ctx.sendErr = none) (hmint : ctx.mintErr = none) :
    (handleMsgAddLiquidity ctx k msg).1.IsOK = true ∧
    (handleMsgAddLiquidity ctx k msg).2.calls = k.calls ++
      [Call.SendCoinsToPool
          [msg.QuoteTokens, ⟨msg.MaxBaseTokens.Denom, msg.MaxBaseTokens.Amount⟩] msg.Sender,
       Call.SetSwapTokenPair msg.GetSwapTokenPair pair,
       Call.MintPoolCoinsToUser
          [⟨(k.GetPoolTokenInfo pair.PoolTokenName).Symbol, NewDec 1⟩] msg.Sender] := by
  have hv : Validated ctx k msg pair msg.MaxBaseTokens.Amount (NewDec 1) :=
    ⟨hdl, hpool, Or.inl ⟨hq, hb, rfl, rfl⟩, by simp [Dec.GT],
      by simpa [Dec.LT] using hmin⟩
  obtain ⟨hres, hcalls⟩ := add_of_validated_ok ctx k msg pair _ _ hv hsend hmint
  exact ⟨by rw [hres]; rfl, by simpa [commitCalls] using hcalls⟩

/-- Witness of C3: quote 7 and max base 3 into the empty pool `ABC_OKT`, with
min liquidity 1. -/
theorem C3_bootstrap_witness :
    (handleMsgAddLiquidity (exampleCtx 5) (examplePool ZeroDec ZeroDec ZeroDec)
      (exampleAdd (NewDec 7) (NewDec 3) (NewDec 1) 100)).1.IsOK = true ∧
    (handleMsgAddLiquidity (exampleCtx 5) (examplePool ZeroDec ZeroDec ZeroDec)
      (exampleAdd (NewDec 7) (NewDec 3) (NewDec 1) 100)).2.calls =
      [Call.SendCoinsToPool [⟨"OKT", NewDec 7⟩, ⟨"ABC", NewDec 3⟩] "alice",
       Call.SetSwapTokenPair "ABC_OKT" ⟨⟨"ABC", ZeroDec⟩, ⟨"OKT", ZeroDec⟩, "OIP3-ABC"⟩,
       Call.MintPoolCoinsToUser [⟨"OIP3-ABC", NewDec 1⟩] "alice"] :=
  C3_bootstrap (exampleCtx 5) (examplePool ZeroDec ZeroDec ZeroDec)
    (exampleAdd (NewDec 7) (NewDec 3) (NewDec 1) 100)
    ⟨⟨"ABC", ZeroDec⟩, ⟨"OKT", ZeroDec⟩, "OIP3-ABC"⟩
    (by decide) (by decide) (by decide) (by decide) (by decide) rfl rfl

/-! ### C4: the deadline check -/

/-- C4, counterexample: a request whose `Deadline` equals the block time (both 5),
into the empty pool `ABC_OKT`, is not rejected: the handler returns success. -/
theorem C4_deadline_equal_block_time_succeeds :
    (exampleAdd (NewDec 10) (NewDec 10) (NewDec 1) 5).Deadline = (exampleCtx 5).blockTime ∧
    (handleMsgAddLiquidity (exampleCtx 5) (examplePool ZeroDec ZeroDec ZeroDec)
      (exampleAdd (NewDec 10) (NewDec 10) (NewDec 1) 5)).1.IsOK = true := by
  decide

/-- C4, as amended: the deadline check is strict.  A request whose `Deadline` is
strictly earlier than the block time gets the failure result "blockTime exceeded
deadline" with the internal code and no event, whatever the pool state and the
other fields of the request, and the state is left as it was.  A request whose
`Deadline` equals the block time passes the deadline check: its result is not the
deadline failure, the handler treats it exactly as the same request with a
`Deadline` one second later, and on an existing pool with both reserves zero, with
`MinLiquidity` at most 1 and with transfer and mint succeeding, it succeeds. -/
theorem C4_deadline_check_is_strict (ctx : Context) (k : Keeper) (msg : MsgAddLiquidity) :
    (msg.Deadline < ctx.blockTime →
      handleMsgAddLiquidity ctx k msg =
        ({ Code := CodeInternal, Log := "blockTime exceeded deadline" }, k) ∧
      (handleMsgAddLiquidity ctx k msg).1.IsOK = false) ∧
    (msg.Deadline = ctx.blockTime →
      (handleMsgAddLiquidity ctx k msg).1.Log ≠ "blockTime exceeded deadline" ∧
      handleMsgAddLiquidity ctx k msg =
        handleMsgAddLiquidity ctx k { msg with Deadline := ctx.blockTime + 1 } ∧
      (∀ pair : SwapTokenPair,
        k.pairs msg.GetSwapTokenPair = some pair →
        pair.QuotePooledCoin.Amount.IsZero = true →
        pair.BasePooledCoin.Amount.IsZero = true →
        msg.MinLiquidity.raw ≤ (NewDec 1).raw →
        ctx.sendErr = none → ctx.mintErr = none →
        (handleMsgAddLiquidity ctx k msg).1.IsOK = true)) := by
  refine ⟨?_, ?_⟩
  · intro hdl
    simp [handleMsgAddLiquidity, hdl, Result.IsOK, CodeOK, CodeInternal]
  · intro heq
    have h1 : ¬ msg.Deadline < ctx.blockTime := by omega
    refine ⟨add_log_ne_deadline ctx k msg h1, ?_, ?_⟩
    · have h2 : ¬ ctx.blockTime + 1 < ctx.blockTime := by omega
      simp only [handleMsgAddLiquidity, h1, h2, if_false, MsgAddLiquidity.GetSwapTokenPair]
    · intro pair hpool hq hb hmin hsend hmint
      have hv : Validated ctx k msg pair msg.MaxBaseTokens.Amount (NewDec 1) :=
        ⟨by omega, hpool, Or.inl ⟨hq, hb, rfl, rfl⟩, by simp [Dec.GT],
          by simpa [Dec.LT] using hmin⟩
      rw [(add_of_validated_ok ctx k msg pair _ _ hv hsend hmint).1]
      rfl

/-- Witness of the amended C4: at block time 5, deadline 4 is rejected and deadline
5 is not. -/
theorem C4_deadline_check_is_strict_witness :
    (handleMsgAddLiquidity (exampleCtx 5) (examplePool ZeroDec ZeroDec ZeroDec)
      (exampleAdd (NewDec 10) (NewDec 10) (NewDec 1) 4)).1.IsOK = false ∧
    (handleMsgAddLiquidity (exampleCtx 5) (examplePool ZeroDec ZeroDec ZeroDec)
      (exampleAdd (NewDec 10) (NewDec 10) (NewDec 1) 5)).1.Log ≠
      "blockTime exceeded deadline" :=
  ⟨((C4_deadline_check_is_strict (exampleCtx 5) (examplePool ZeroDec ZeroDec ZeroDec)
      (exampleAdd (NewDec 10) (NewDec 10) (NewDec 1) 4)).1 (by decide)).2,
   ((C4_deadline_check_is_strict (exampleCtx 5) (examplePool ZeroDec ZeroDec ZeroDec)
      (exampleAdd (NewDec 10) (NewDec 10) (NewDec 1) 5)).2 rfl).1⟩

/-! ### C5: the max-base bound -/

/-- C5: a request that passes the deadline check on an existing pool with both
reserves strictly positive and non-zero total supply, whose required base amount
`QuoteTokens.Amount.Mul(base reserve).Quo(quote reserve)` is greater than
`MaxBaseTokens.Amount`, gets the failure result "MaxBaseTokens is too high" and the
state is left as it was; so does the request quote 25, max base 40 on the pool
(base 100, quote 50) with total supply 1000. -/
theorem C5_max_base_exceeded (ctx : Context) (k : Keeper) (msg : MsgAddLiquidity)
    (pair : SwapTokenPair)
    (hdl : ctx.blockTime ≤ msg.Deadline)
    (hpool : k.pairs msg.GetSwapTokenPair = some pair)
    (hb : pair.BasePooledCoin.IsPositive = true)
    (hq : pair.QuotePooledCoin.IsPositive = true)
    (hts : (k.GetPoolTokenInfo pair.PoolTokenName).TotalSupply.IsZero = false)
    (hgt : ((msg.QuoteTokens.Amount.Mul pair.BasePooledCoin.Amount).Quo
      pair.QuotePooledCoin.Amount).GT msg.MaxBaseTokens.Amount = true) :
    handleMsgAddLiquidity ctx k msg =
      ({ Code := CodeInternal, Log := "MaxBaseTokens is too high" }, k) ∧
    (handleMsgAddLiquidity ctx k msg).1.IsOK = false ∧
    handleMsgAddLiquidity (exampleCtx 5) (examplePool (NewDec 100) (NewDec 50) (NewDec 1000))
        (exampleAdd (NewDec 25) (NewDec 40) (NewDec 1) 100) =
      ({ Code := CodeInternal, Log := "MaxBaseTokens is too high" },
       examplePool (NewDec 100) (NewDec 50) (NewDec 1000)) := by
  have gen : ∀ (ctx : Context) (k : Keeper) (msg : MsgAddLiquidity) (pair : SwapTokenPair),
      ctx.blockTime ≤ msg.Deadline → k.pairs msg.GetSwapTokenPair = some pair →
      pair.BasePooledCoin.IsPositive = true → pair.QuotePooledCoin.IsPositive = true →
      (k.GetPoolTokenInfo pair.PoolTokenName).TotalSupply.IsZero = false →
      ((msg.QuoteTokens.Amount.Mul pair.BasePooledCoin.Amount).Quo
        pair.QuotePooledCoin.Amount).GT msg.MaxBaseTokens.Amount = true →
      handleMsgAddLiquidity ctx k msg =
        ({ Code := CodeInternal, Log := "MaxBaseTokens is too high" }, k) := by
    intro ctx k msg pair hdl hpool hb hq hts hgt
    have h1 : ¬ msg.Deadline < ctx.blockTime := not_lt.mpr hdl
    simp only [DecCoin.IsPositive] at hb hq
    have hq0 := isPositive_not_isZero _ hq
    simp [handleMsgAddLiquidity, Keeper.GetSwapTokenPair, hpool, h1, hq, hb, hq0, hts, hgt,
      NewDecCoinFromDec, DecCoin.IsPositive]
  have hmain := gen ctx k msg pair hdl hpool hb hq hts hgt
  refine ⟨hmain, by rw [hmain]; rfl, ?_⟩
  exact gen _ _ _ ⟨⟨"ABC", NewDec 100⟩, ⟨"OKT", NewDec 50⟩, "OIP3-ABC"⟩
    (by decide) (by decide) (by decide) (by decide) (by decide) (by decide)

/-- Witness of C5: quote 25 and max base 40 on the pool (base 100, quote 50) with
total supply 1000. -/
theorem C5_max_base_exceeded_witness :
    (handleMsgAddLiquidity (exampleCtx 5)
      (examplePool (NewDec 100) (NewDec 50) (NewDec 1000))
      (exampleAdd (NewDec 25) (NewDec 40) (NewDec 1) 100)).1.IsOK = false :=
  (C5_max_base_exceeded (exampleCtx 5) (examplePool (NewDec 100) (NewDec 50) (NewDec 1000))
    (exampleAdd (NewDec 25) (NewDec 40) (NewDec 1) 100)
    ⟨⟨"ABC", NewDec 100⟩, ⟨"OKT", NewDec 50⟩, "OIP3-ABC"⟩
    (by decide) (by decide) (by decide) (by decide) (by decide) (by decide)).2.1

/-! ### C6: the min-liquidity bound -/

/-- C6: for a request that passes the deadline check on an existing pool, (1) in
the bootstrap branch, where the liquidity is 1, a `MinLiquidity` greater than 1
gets the failure result "MinLiquidity is too low"; (2) in the proportional branch,
a liquidity `QuoteTokens.Amount.Quo(quote reserve).Mul(TotalSupply)` less than
`MinLiquidity` gets a failure result with the internal code, which is
"MinLiquidity is too low" when the max-base bound holds; in both the state is left
as it was; (3) on success the liquidity minted is not less than `MinLiquidity` and
the base amount sent to escrow is not greater than `MaxBaseTokens.Amount`. -/
theorem C6_min_liquidity (ctx : Context) (k : Keeper) (msg : MsgAddLiquidity)
    (pair : SwapTokenPair)
    (hdl : ctx.blockTime ≤ msg.Deadline)
    (hpool : k.pairs msg.GetSwapTokenPair = some pair) :
    (pair.QuotePooledCoin.Amount.IsZero = true → pair.BasePooledCoin.Amount.IsZero = true →
      (NewDec 1).LT msg.MinLiquidity = true →
      handleMsgAddLiquidity ctx k msg =
        ({ Code := CodeInternal, Log := "MinLiquidity is too low" }, k)) ∧
    (pair.BasePooledCoin.IsPositive = true → pair.QuotePooledCoin.IsPositive = true →
      (k.GetPoolTokenInfo pair.PoolTokenName).TotalSupply.IsZero = false →
      ((msg.QuoteTokens.Amount.Quo pair.QuotePooledCoin.Amount).Mul
        (k.GetPoolTokenInfo pair.PoolTokenName).TotalSupply).LT msg.MinLiquidity = true →
      (handleMsgAddLiquidity ctx k msg).1.Code = CodeInternal ∧
      (handleMsgAddLiquidity ctx k msg).1.IsOK = false ∧
      (handleMsgAddLiquidity ctx k msg).2 = k ∧
      (((msg.QuoteTokens.Amount.Mul pair.BasePooledCoin.Amount).Quo
          pair.QuotePooledCoin.Amount).GT msg.MaxBaseTokens.Amount = false →
        (handleMsgAddLiquidity ctx k msg).1.Log = "MinLiquidity is too low")) ∧
    ((handleMsgAddLiquidity ctx k msg).1.IsOK = true →
      ∃ base liquidity : Dec,
        (handleMsgAddLiquidity ctx k msg).2.calls = k.calls ++
          [Call.SendCoinsToPool [msg.QuoteTokens, ⟨msg.MaxBaseTokens.Denom, base⟩] msg.Sender,
           Call.SetSwapTokenPair msg.GetSwapTokenPair pair,
           Call.MintPoolCoinsToUser
             [⟨(k.GetPoolTokenInfo pair.PoolTokenName).Symbol, liquidity⟩] msg.Sender] ∧
        liquidity.LT msg.MinLiquidity = false ∧
        base.GT msg.MaxBaseTokens.Amount = false) := by
  have h1 : ¬ msg.Deadline < ctx.blockTime := not_lt.mpr hdl
  refine ⟨?_, ?_, ?_⟩
  · intro hq hb hlt
    simp [handleMsgAddLiquidity, Keeper.GetSwapTokenPair, hpool, h1, hq, hb, hlt, Dec.GT]
  · intro hb hq hts hlt
    simp only [DecCoin.IsPositive] at hb hq
    have hq0 := isPositive_not_isZero _ hq
    by_cases hgt : ((msg.QuoteTokens.Amount.Mul pair.BasePooledCoin.Amount).Quo
        pair.QuotePooledCoin.Amount).GT msg.MaxBaseTokens.Amount = true
    · simp [handleMsgAddLiquidity, Keeper.GetSwapTokenPair, hpool, h1, hq, hb, hq0, hts, hgt,
        NewDecCoinFromDec, DecCoin.IsPositive, Result.IsOK, CodeOK, CodeInternal]
    · simp [handleMsgAddLiquidity, Keeper.GetSwapTokenPair, hpool, h1, hq, hb, hq0, hts, hgt,
        hlt, NewDecCoinFromDec, DecCoin.IsPositive, Result.IsOK, CodeOK, CodeInternal]
  · intro hok
    obtain ⟨p, base, liquidity, hv, hs, hm⟩ := add_ok_validated ctx k msg hok
    have hcalls := (add_of_validated_ok ctx k msg p base liquidity hv hs hm).2
    obtain ⟨_, hp, _, hgt, hlt⟩ := hv
    have hpp : p = pair := by rw [hpool] at hp; exact (Option.some.inj hp).symm
    subst hpp
    exact ⟨base, liquidity, by simpa [commitCalls] using hcalls, hlt, hgt⟩

/-- Witness of C6: a deposit into the empty pool `ABC_OKT` with min liquidity 2. -/
theorem C6_min_liquidity_witness :
    handleMsgAddLiquidity (exampleCtx 5) (examplePool ZeroDec ZeroDec ZeroDec)
        (exampleAdd (NewDec 10) (NewDec 10) (NewDec 2) 100) =
      ({ Code := CodeInternal, Log := "MinLiquidity is too low" },
       examplePool ZeroDec ZeroDec ZeroDec) :=
  (C6_min_liquidity (exampleCtx 5) (examplePool ZeroDec ZeroDec ZeroDec)
    (exampleAdd (NewDec 10) (NewDec 10) (NewDec 2) 100)
    ⟨⟨"ABC", ZeroDec⟩, ⟨"OKT", ZeroDec⟩, "OIP3-ABC"⟩
    (by decide) (by decide)).1 (by decide) (by decide) (by decide)

/-! ### C7: failure of the escrow transfer -/

/-- The code of every result of `handleMsgAddLiquidity`: success, the internal
code, or the insufficient-coins code, the last only when the escrow transfer
returned an error. -/
theorem add_code_cases (ctx : Context) (k : Keeper) (msg : MsgAddLiquidity) :
    (handleMsgAddLiquidity ctx k msg).1.Code = CodeOK ∨
    (handleMsgAddLiquidity ctx k msg).1.Code = CodeInternal ∨
    ((handleMsgAddLiquidity ctx k msg).1.Code = CodeInsufficientCoins ∧
      ctx.sendErr ≠ none) := by
  rcases add_validated_or_rejected ctx k msg with ⟨pair, base, liquidity, hv⟩ | ⟨hc, _, _⟩
  · cases hs : ctx.sendErr with
    | some e =>
      right; right
      rw [add_of_validated_sendErr ctx k msg pair base liquidity e hv hs]
      simp
    | none =>
      cases hm : ctx.mintErr with
      | some e =>
        right; left
        rw [(add_of_validated_mintErr ctx k msg pair base liquidity e hv hs hm).1]
      | none =>
        left
        rw [(add_of_validated_ok ctx k msg pair base liquidity hv hs hm).1]
  · exact Or.inr (Or.inl hc)

/-- C7: when a request passes all checks and the escrow transfer returns an error,
the handler returns the failure "insufficient Coins" with the insufficient-coins
code, which differs from the internal code; the transfer is the only keeper call
made (neither `SetSwapTokenPair` nor `MintPoolCoinsToUser`), and the pool records,
the pool-share token records (total supply) and the balances are as before.  No
other failure of the handler has the insufficient-coins code: every result has
code success or internal unless the transfer returned an error. -/
theorem C7_transfer_failure (ctx : Context) (k : Keeper) (msg : MsgAddLiquidity)
    (pair : SwapTokenPair) (base liquidity : Dec) (e : String)
    (hv : Validated ctx k msg pair base liquidity)
    (hsend : ctx.sendErr = some e) :
    (handleMsgAddLiquidity ctx k msg).1 =
      { Code := CodeInsufficientCoins, Log := "insufficient Coins" } ∧
    CodeInsufficientCoins ≠ CodeInternal ∧
    (handleMsgAddLiquidity ctx k msg).2.calls = k.calls ++
      [Call.SendCoinsToPool [msg.QuoteTokens, ⟨msg.MaxBaseTokens.Denom, base⟩] msg.Sender] ∧
    (handleMsgAddLiquidity ctx k msg).2.pairs = k.pairs ∧
    (handleMsgAddLiquidity ctx k msg).2.poolTokens = k.poolTokens ∧
    (handleMsgAddLiquidity ctx k msg).2.balances = k.balances ∧
    (∀ (c : Context) (k2 : Keeper) (m : MsgAddLiquidity), c.sendErr = none →
      (handleMsgAddLiquidity c k2 m).1.Code = CodeOK ∨
      (handleMsgAddLiquidity c k2 m).1.Code = CodeInternal) := by
  rw [add_of_validated_sendErr ctx k msg pair base liquidity e hv hsend]
  refine ⟨rfl, by decide, rfl, rfl, rfl, rfl, ?_⟩
  intro c k2 m hc
  rcases add_code_cases c k2 m with h | h | ⟨_, h⟩
  · exact Or.inl h
  · exact Or.inr h
  · exact absurd hc h

/-- Witness of C7: quote 10 and max base 10 into the empty pool `ABC_OKT` while the
transfer service reports an error. -/
theorem C7_transfer_failure_witness :
    (handleMsgAddLiquidity ⟨5, [], some "insufficient funds", none⟩
      (examplePool ZeroDec ZeroDec ZeroDec)
      (exampleAdd (NewDec 10) (NewDec 10) (NewDec 1) 100)).1 =
      { Code := CodeInsufficientCoins, Log := "insufficient Coins" } :=
  (C7_transfer_failure ⟨5, [], some "insufficient funds", none⟩
    (examplePool ZeroDec ZeroDec ZeroDec)
    (exampleAdd (NewDec 10) (NewDec 10) (NewDec 1) 100)
    ⟨⟨"ABC", ZeroDec⟩, ⟨"OKT", ZeroDec⟩, "OIP3-ABC"⟩ (NewDec 10) (NewDec 1)
    "insufficient funds"
    (by unfold Validated; decide) rfl).1

/-! ### C8: the reserve invariant -/

/-- The record under a key after `handleMsgCreateExchange`: the record that was
there, or a record with both reserves zero. -/
theorem handleMsgCreateExchange_pairs (ctx : Context) (k : Keeper) (msg : MsgCreateExchange)
    (key : String) :
    (handleMsgCreateExchange ctx k msg).2.pairs key = k.pairs key ∨
    (handleMsgCreateExchange ctx k msg).2.pairs key =
      some ⟨⟨msg.Token, ZeroDec⟩, ⟨NativeToken, ZeroDec⟩, "OIP3-" ++ msg.Token⟩ := by
  unfold handleMsgCreateExchange
  cases ht : k.tokens msg.Token <;> cases hp : k.pairs (msg.Token ++ "_" ++ NativeToken) <;>
    simp [Keeper.IsTokenExits, ht, Keeper.GetSwapTokenPair, hp, Keeper.SetSwapTokenPair,
      NewDecCoinFromDec]
  split
  · exact Or.inl rfl
  · by_cases hk : key = msg.Token ++ "_" ++ NativeToken
    · simp [hk]
    · simp [hk]

/-- One message handled through `NewHandler` keeps the reserve invariant. -/
theorem NewHandler_invariant (ctx : Context) (k : Keeper) (msg : Msg)
    (h : ReserveInvariant k) : ReserveInvariant (NewHandler ctx k msg).2 := by
  intro key p hp
  cases msg with
  | AddLiquidity m =>
    simp only [NewHandler] at hp
    rw [handleMsgAddLiquidity_pairs] at hp
    exact h key p hp
  | CreateExchange m =>
    simp only [NewHandler] at hp
    rcases handleMsgCreateExchange_pairs { ctx with events := [] } k m key with h2 | h2
    · rw [h2] at hp
      exact h key p hp
    · rw [h2] at hp
      have hpp := Option.some.inj hp
      subst hpp
      exact Or.inl ⟨rfl, rfl⟩

/-- C8 (reserve invariant): from a state in which every pool record has both
reserves zero or both strictly positive, any finite sequence of create-exchange
and add-liquidity requests, with arbitrary fields, block times and outcomes of
the transfer and the mint, leads to a state in which every pool record has both
reserves zero or both strictly positive. -/
theorem C8_reserve_invariant (k : Keeper) (msgs : List (Context × Msg))
    (h : ReserveInvariant k) : ReserveInvariant (runMsgs k msgs) := by
  induction msgs generalizing k with
  | nil => exact h
  | cons cm rest ih =>
    obtain ⟨ctx, msg⟩ := cm
    exact ih (NewHandler ctx k msg).2 (NewHandler_invariant ctx k msg h)

/-- Witness of C8: from the state without pool records, create the exchange for
`ABC`, add liquidity twice (the second time with a failing mint) and try to
create the exchange again. -/
theorem C8_reserve_invariant_witness :
    ReserveInvariant (runMsgs (exampleKeeper (NewDec 1000))
      [(exampleCtx 5, Msg.CreateExchange ⟨"ABC"⟩),
       (exampleCtx 6, Msg.AddLiquidity (exampleAdd (NewDec 10) (NewDec 10) (NewDec 1) 100)),
       (⟨7, [], none, some "mint failed"⟩,
        Msg.AddLiquidity (exampleAdd ZeroDec (NewDec 3) (NewDec 1) 100)),
       (exampleCtx 8, Msg.CreateExchange ⟨"ABC"⟩)]) :=
  C8_reserve_invariant (exampleKeeper (NewDec 1000)) _
    (fun key p hp => by simp [exampleKeeper] at hp)

/-! ### C9: when create-exchange succeeds -/

/-- C9: `handleMsgCreateExchange` returns success exactly when the keeper reports
the base token as existing, no pool record is stored under
`Token + "_" + NativeToken`, and the pool-share token record named
`"OIP3-" + Token` has a non-empty symbol; otherwise it returns a failure with the
internal code and no event, and leaves the state as it was (no `SetSwapTokenPair`
call). -/
theorem C9_create_exchange_success_iff (ctx : Context) (k : Keeper)
    (msg : MsgCreateExchange) :
    ((handleMsgCreateExchange ctx k msg).1.IsOK = true ↔
      (k.tokens msg.Token = true ∧
       k.pairs (msg.Token ++ "_" ++ NativeToken) = none ∧
       (k.GetPoolTokenInfo ("OIP3-" ++ msg.Token)).Symbol ≠ "")) ∧
    ((handleMsgCreateExchange ctx k msg).1.IsOK = true ∨
      ((handleMsgCreateExchange ctx k msg).1.Code = CodeInternal ∧
       (handleMsgCreateExchange ctx k msg).1.Events = [] ∧
       (handleMsgCreateExchange ctx k msg).2 = k)) := by
  have hlen : ∀ s : String, s.length = 0 ↔ s = "" := fun s => by
    constructor
    · intro h
      have hd : s.data = [] := List.length_eq_zero.mp h
      exact String.ext hd
    · rintro rfl; rfl
  unfold handleMsgCreateExchange
  cases ht : k.tokens msg.Token <;> cases hp : k.pairs (msg.Token ++ "_" ++ NativeToken) <;>
    simp [Keeper.IsTokenExits, ht, Keeper.GetSwapTokenPair, hp, Result.IsOK, CodeOK,
      CodeInternal]
  by_cases hs : (k.GetPoolTokenInfo ("OIP3-" ++ msg.Token)).Symbol = ""
  · simp [hs]
  · have hl : ¬ (k.GetPoolTokenInfo ("OIP3-" ++ msg.Token)).Symbol.length = 0 :=
      fun h => hs ((hlen _).mp h)
    simp [hs, hl]

/-! ### C10: the effects of a successful create-exchange -/

/-- C10 (defect of the code): creating the exchange for `ABC` succeeds and stores
under `ABC_OKT` the record with base (`ABC`, 0), quote (`OKT`, 0) and pool token
`OIP3-ABC`, by one `SetSwapTokenPair` call, but the only event of the result is the
message event with the single attribute `module`: it carries no `tokenpair`
attribute, because the event returned by `AppendAttributes` is dropped. -/
theorem C10_create_event_lacks_tokenpair :
    (handleMsgCreateExchange (exampleCtx 5) (exampleKeeper ZeroDec) ⟨"ABC"⟩).1 =
      { Code := CodeOK, Log := "",
        Events := [⟨"message", [⟨"module", "swap"⟩]⟩] } ∧
    (handleMsgCreateExchange (exampleCtx 5) (exampleKeeper ZeroDec) ⟨"ABC"⟩).2.pairs
        "ABC_OKT" =
      some ⟨⟨"ABC", ZeroDec⟩, ⟨"OKT", ZeroDec⟩, "OIP3-ABC"⟩ ∧
    (handleMsgCreateExchange (exampleCtx 5) (exampleKeeper ZeroDec) ⟨"ABC"⟩).2.calls =
      [Call.SetSwapTokenPair "ABC_OKT" ⟨⟨"ABC", ZeroDec⟩, ⟨"OKT", ZeroDec⟩, "OIP3-ABC"⟩] ∧
    (∀ ev ∈ (handleMsgCreateExchange (exampleCtx 5) (exampleKeeper ZeroDec) ⟨"ABC"⟩).1.Events,
      ∀ a ∈ ev.Attributes, a.Key ≠ "tokenpair") := by
  decide

/-! ### C11: creating the same exchange again -/

/-- With the token known and a record already stored under the key, create-exchange
returns the exchange-exists failure and leaves the state as it was. -/
theorem create_of_existing (ctx : Context) (k : Keeper) (msg : MsgCreateExchange)
    (p : SwapTokenPair) (ht : k.tokens msg.Token = true)
    (hp : k.pairs (msg.Token ++ "_" ++ NativeToken) = some p) :
    handleMsgCreateExchange ctx k msg =
      ({ Code := CodeInternal, Log := "Failed to create Exchange: exchange is exit" }, k) := by
  simp [handleMsgCreateExchange, Keeper.IsTokenExits, ht, Keeper.GetSwapTokenPair, hp]

/-- Repeating create-exchange on a state that already has the record yields only
exchange-exists failures and the same state. -/
theorem createAgain_of_existing (msg : MsgCreateExchange) (k : Keeper) (p : SwapTokenPair)
    (ht : k.tokens msg.Token = true)
    (hp : k.pairs (msg.Token ++ "_" ++ NativeToken) = some p) (ctxs : List Context) :
    createAgain msg k ctxs =
      (List.replicate ctxs.length
        { Code := CodeInternal, Log := "Failed to create Exchange: exchange is exit" }, k) := by
  induction ctxs with
  | nil => rfl
  | cons c rest ih =>
    simp only [createAgain, create_of_existing c k msg p ht hp, ih, List.length_cons,
      List.replicate_succ]

/-- C11 (idempotent rejection): when the token exists, its pool-share token is
provisioned and no pool record is stored yet, the first create-exchange call
succeeds and stores the zero-reserve record, and every one of any number of
further identical calls (in any contexts) returns the failure "Failed to create
Exchange: exchange is exit" and leaves the state, hence the stored record, as the
first call left it. -/
theorem C11_idempotent_rejection (ctx : Context) (k : Keeper) (msg : MsgCreateExchange)
    (ctxs : List Context)
    (ht : k.tokens msg.Token = true)
    (hp : k.pairs (msg.Token ++ "_" ++ NativeToken) = none)
    (hs : (k.GetPoolTokenInfo ("OIP3-" ++ msg.Token)).Symbol ≠ "") :
    (handleMsgCreateExchange ctx k msg).1.IsOK = true ∧
    (handleMsgCreateExchange ctx k msg).2.pairs (msg.Token ++ "_" ++ NativeToken) =
      some ⟨⟨msg.Token, ZeroDec⟩, ⟨NativeToken, ZeroDec⟩, "OIP3-" ++ msg.Token⟩ ∧
    (createAgain msg (handleMsgCreateExchange ctx k msg).2 ctxs).1 =
      List.replicate ctxs.length
        { Code := CodeInternal, Log := "Failed to create Exchange: exchange is exit" } ∧
    (createAgain msg (handleMsgCreateExchange ctx k msg).2 ctxs).2 =
      (handleMsgCreateExchange ctx k msg).2 := by
  have hl : ¬ (k.GetPoolTokenInfo ("OIP3-" ++ msg.Token)).Symbol.length = 0 := by
    intro h
    exact hs (String.ext (List.length_eq_zero.mp h))
  have hout : handleMsgCreateExchange ctx k msg =
      ({ Events := ctx.events ++
          [NewEvent EventTypeMessage [NewAttribute AttributeKeyModule ModuleName]] },
       k.SetSwapTokenPair (msg.Token ++ "_" ++ NativeToken)
        ⟨⟨msg.Token, ZeroDec⟩, ⟨NativeToken, ZeroDec⟩, "OIP3-" ++ msg.Token⟩) := by
    simp [handleMsgCreateExchange, Keeper.IsTokenExits, ht, Keeper.GetSwapTokenPair, hp, hl,
      NewDecCoinFromDec]
  have hrec : (handleMsgCreateExchange ctx k msg).2.pairs (msg.Token ++ "_" ++ NativeToken) =
      some ⟨⟨msg.Token, ZeroDec⟩, ⟨NativeToken, ZeroDec⟩, "OIP3-" ++ msg.Token⟩ := by
    rw [hout]; simp [Keeper.SetSwapTokenPair]
  have htok : (handleMsgCreateExchange ctx k msg).2.tokens msg.Token = true := by
    rw [hout]; exact ht
  have hagain := createAgain_of_existing msg _ _ htok hrec ctxs
  refine ⟨by rw [hout]; rfl, hrec, by rw [hagain], by rw [hagain]⟩

/-- Witness of C11: create the exchange for `ABC`, then three more times. -/
theorem C11_idempotent_rejection_witness :
    (createAgain ⟨"ABC"⟩
      (handleMsgCreateExchange (exampleCtx 5) (exampleKeeper ZeroDec) ⟨"ABC"⟩).2
      [exampleCtx 6, exampleCtx 7, exampleCtx 8]).1 =
      List.replicate 3
        { Code := CodeInternal, Log := "Failed to create Exchange: exchange is exit" } :=
  (C11_idempotent_rejection (exampleCtx 5) (exampleKeeper ZeroDec) ⟨"ABC"⟩
    [exampleCtx 6, exampleCtx 7, exampleCtx 8] (by decide) (by decide) (by decide)).2.2.1

/-! ### C12: failures at a validation check -/

/-- A request for which a check fails does not pass the checks. -/
theorem validationFailure_not_validated (ctx : Context) (k : Keeper) (msg : MsgAddLiquidity)
    (hf : ValidationFailure ctx k msg) (pair : SwapTokenPair) (base liquidity : Dec) :
    ¬ Validated ctx k msg pair base liquidity := by
  rintro ⟨hdl, hpool, hbr, hgt, hlt⟩
  rcases hf with hd | hn | ⟨p, hp, hcase⟩
  · exact absurd hdl (not_le.mpr hd)
  · rw [hn] at hpool; exact Option.noConfusion hpool
  · have hpp : pair = p := by rw [hpool] at hp; exact Option.some.inj hp
    subst hpp
    rcases hbr with ⟨hq, hb, rfl, rfl⟩ | ⟨hb, hq, hts, rfl, rfl⟩
    · rcases hcase with ⟨h1, _⟩ | ⟨_, h2, _⟩ | ⟨_, h2, _⟩ | ⟨_, _, h3⟩ | ⟨_, h2, _⟩
      · exact h1 ⟨hq, hb⟩
      · have := isPositive_not_isZero _ h2; simp_all
      · have := isPositive_not_isZero _ h2; simp_all
      · simp_all
      · have := isPositive_not_isZero _ h2; simp_all
    · rcases hcase with ⟨_, h1⟩ | ⟨_, _, h3⟩ | ⟨_, _, h3⟩ | ⟨h2, _, _⟩ | ⟨_, _, h3⟩
      · exact h1 ⟨hb, hq⟩
      · simp_all
      · simp_all
      · have := isPositive_not_isZero _ hq; simp_all
      · simp_all

/-- C12: when `handleMsgAddLiquidity` fails at a validation check (deadline
exceeded, pool record absent, inconsistent reserves, zero total supply with
positive reserves, max-base bound, min-liquidity bound), it returns a failure with
the internal code and no event, and the state is the one before the call: no
`SendCoinsToPool`, `SetSwapTokenPair` or `MintPoolCoinsToUser` call was made, and
pool records, balances and total supply are unchanged. -/
theorem C12_validation_failure_no_effect (ctx : Context) (k : Keeper)
    (msg : MsgAddLiquidity) (hf : ValidationFailure ctx k msg) :
    (handleMsgAddLiquidity ctx k msg).1.IsOK = false ∧
    (handleMsgAddLiquidity ctx k msg).1.Code = CodeInternal ∧
    (handleMsgAddLiquidity ctx k msg).1.Events = [] ∧
    (handleMsgAddLiquidity ctx k msg).2 = k ∧
    (handleMsgAddLiquidity ctx k msg).2.calls = k.calls ∧
    (handleMsgAddLiquidity ctx k msg).2.pairs = k.pairs ∧
    (handleMsgAddLiquidity ctx k msg).2.balances = k.balances ∧
    (handleMsgAddLiquidity ctx k msg).2.poolTokens = k.poolTokens := by
  rcases add_validated_or_rejected ctx k msg with ⟨pair, base, liquidity, hv⟩ | ⟨hc, he, hk⟩
  · exact absurd hv (validationFailure_not_validated ctx k msg hf pair base liquidity)
  · refine ⟨?_, hc, he, hk, ?_, ?_, ?_, ?_⟩
    · simp [Result.IsOK, hc, CodeOK, CodeInternal]
    all_goals rw [hk]

/-- Witness of C12: quote 25 and max base 40 on the pool (base 100, quote 50) with
total supply 1000, which fails the max-base bound. -/
theorem C12_validation_failure_no_effect_witness :
    (handleMsgAddLiquidity (exampleCtx 5)
      (examplePool (NewDec 100) (NewDec 50) (NewDec 1000))
      (exampleAdd (NewDec 25) (NewDec 40) (NewDec 1) 100)).2 =
      examplePool (NewDec 100) (NewDec 50) (NewDec 1000) :=
  (C12_validation_failure_no_effect (exampleCtx 5)
    (examplePool (NewDec 100) (NewDec 50) (NewDec 1000))
    (exampleAdd (NewDec 25) (NewDec 40) (NewDec 1) 100)
    (Or.inr (Or.inr ⟨⟨⟨"ABC", NewDec 100⟩, ⟨"OKT", NewDec 50⟩, "OIP3-ABC"⟩, by decide,
      Or.inr (Or.inr (Or.inl (by decide)))⟩))).2.2.2.1

/-! ### C13: the pool records after a failure -/

/-- C13: whenever `handleMsgAddLiquidity` returns a failure result, also when the
mint fails after the transfer and the write, the pool record stored under every
pair key after the call equals the one stored before the call. -/
theorem C13_failure_keeps_pool_records (ctx : Context) (k : Keeper)
    (msg : MsgAddLiquidity) (hfail : (handleMsgAddLiquidity ctx k msg).1.IsOK = false) :
    (handleMsgAddLiquidity ctx k msg).1.IsOK = false ∧
    ∀ key, (handleMsgAddLiquidity ctx k msg).2.pairs key = k.pairs key :=
  ⟨hfail, fun key => handleMsgAddLiquidity_pairs ctx k msg key⟩

/-- Witness of C13: a deposit into the empty pool `ABC_OKT` whose mint fails. -/
theorem C13_failure_keeps_pool_records_witness :
    (handleMsgAddLiquidity ⟨5, [], none, some "mint failed"⟩
      (examplePool ZeroDec ZeroDec ZeroDec)
      (exampleAdd (NewDec 10) (NewDec 10) (NewDec 1) 100)).1.IsOK = false ∧
    ∀ key, (handleMsgAddLiquidity ⟨5, [], none, some "mint failed"⟩
      (examplePool ZeroDec ZeroDec ZeroDec)
      (exampleAdd (NewDec 10) (NewDec 10) (NewDec 1) 100)).2.pairs key =
      (examplePool ZeroDec ZeroDec ZeroDec).pairs key :=
  C13_failure_keeps_pool_records ⟨5, [], none, some "mint failed"⟩
    (examplePool ZeroDec ZeroDec ZeroDec)
    (exampleAdd (NewDec 10) (NewDec 10) (NewDec 1) 100) (by decide)

/-! ### C14: the order of the effects -/

/-- The balances after a failed mint are those left by the escrow transfer. -/
theorem add_of_validated_mintErr_balances (ctx : Context) (k : Keeper)
    (msg : MsgAddLiquidity) (pair : SwapTokenPair) (base liquidity : Dec) (e : String)
    (hv : Validated ctx k msg pair base liquidity)
    (hsend : ctx.sendErr = none) (hmint : ctx.mintErr = some e) :
    (handleMsgAddLiquidity ctx k msg).2.balances =
      [msg.QuoteTokens, ⟨msg.MaxBaseTokens.Denom, base⟩].foldl
        (Keeper.moveCoin msg.Sender ModuleName) k.balances := by
  obtain ⟨hdl, hpool, hbr, hgt, hlt⟩ := hv
  have h1 : ¬ msg.Deadline < ctx.blockTime := not_lt.mpr hdl
  rcases hbr with ⟨hq, hb, rfl, rfl⟩ | ⟨hb, hq, hts, rfl, rfl⟩
  · simp [handleMsgAddLiquidity, Keeper.GetSwapTokenPair, hpool, h1, hq, hb, hgt, hlt,
      Keeper.SendCoinsToPool, hsend, Keeper.MintPoolCoinsToUser, hmint,
      Keeper.SetSwapTokenPair, NewDecCoinFromDec]
  · simp only [DecCoin.IsPositive] at hb hq
    have hq0 := isPositive_not_isZero _ hq
    simp [handleMsgAddLiquidity, Keeper.GetSwapTokenPair, hpool, h1, hq, hb, hq0, hts, hgt,
      hlt, Keeper.SendCoinsToPool, hsend, Keeper.MintPoolCoinsToUser, hmint,
      Keeper.SetSwapTokenPair, NewDecCoinFromDec, DecCoin.IsPositive]

/-- C14: for a request that passes all checks, the keeper calls are made in the
order `SendCoinsToPool` (quote tokens and base tokens), `SetSwapTokenPair`,
`MintPoolCoinsToUser` (liquidity): a failing transfer stops after the first call,
and a succeeding transfer is followed by the other two.  So when the mint returns
an error the handler returns the failure "fail to mint poolCoins" after the
transfer has moved the balances and the pool record has been written. -/
theorem C14_commit_order (ctx : Context) (k : Keeper) (msg : MsgAddLiquidity)
    (pair : SwapTokenPair) (base liquidity : Dec)
    (hv : Validated ctx k msg pair base liquidity) :
    (∀ e, ctx.sendErr = some e →
      (handleMsgAddLiquidity ctx k msg).2.calls = k.calls ++
        [Call.SendCoinsToPool [msg.QuoteTokens, ⟨msg.MaxBaseTokens.Denom, base⟩]
          msg.Sender]) ∧
    (ctx.sendErr = none →
      (handleMsgAddLiquidity ctx k msg).2.calls = k.calls ++
        [Call.SendCoinsToPool [msg.QuoteTokens, ⟨msg.MaxBaseTokens.Denom, base⟩] msg.Sender,
         Call.SetSwapTokenPair msg.GetSwapTokenPair pair,
         Call.MintPoolCoinsToUser
           [⟨(k.GetPoolTokenInfo pair.PoolTokenName).Symbol, liquidity⟩] msg.Sender]) ∧
    (ctx.sendErr = none → ∀ e, ctx.mintErr = some e →
      (handleMsgAddLiquidity ctx k msg).1 =
        { Code := CodeInternal, Log := "fail to mint poolCoins" } ∧
      (handleMsgAddLiquidity ctx k msg).1.IsOK = false ∧
      (handleMsgAddLiquidity ctx k msg).2.balances =
        [msg.QuoteTokens, ⟨msg.MaxBaseTokens.Denom, base⟩].foldl
          (Keeper.moveCoin msg.Sender ModuleName) k.balances) := by
  refine ⟨?_, ?_, ?_⟩
  · intro e hs
    rw [add_of_validated_sendErr ctx k msg pair base liquidity e hv hs]
  · intro hs
    cases hm : ctx.mintErr with
    | some e =>
      simpa [commitCalls] using
        (add_of_validated_mintErr ctx k msg pair base liquidity e hv hs hm).2
    | none =>
      simpa [commitCalls] using (add_of_validated_ok ctx k msg pair base liquidity hv hs hm).2
  · intro hs e hm
    have hres := (add_of_validated_mintErr ctx k msg pair base liquidity e hv hs hm).1
    exact ⟨hres, by rw [hres]; rfl,
      add_of_validated_mintErr_balances ctx k msg pair base liquidity e hv hs hm⟩

/-- Witness of C14: a deposit into the empty pool `ABC_OKT` whose mint fails. -/
theorem C14_commit_order_witness :
    (handleMsgAddLiquidity ⟨5, [], none, some "mint failed"⟩
      (examplePool ZeroDec ZeroDec ZeroDec)
      (exampleAdd (NewDec 10) (NewDec 10) (NewDec 1) 100)).2.calls =
      [Call.SendCoinsToPool [⟨"OKT", NewDec 10⟩, ⟨"ABC", NewDec 10⟩] "alice",
       Call.SetSwapTokenPair "ABC_OKT" ⟨⟨"ABC", ZeroDec⟩, ⟨"OKT", ZeroDec⟩, "OIP3-ABC"⟩,
       Call.MintPoolCoinsToUser [⟨"OIP3-ABC", NewDec 1⟩] "alice"] :=
  (C14_commit_order ⟨5, [], none, some "mint failed"⟩
    (examplePool ZeroDec ZeroDec ZeroDec)
    (exampleAdd (NewDec 10) (NewDec 10) (NewDec 1) 100)
    ⟨⟨"ABC", ZeroDec⟩, ⟨"OKT", ZeroDec⟩, "OIP3-ABC"⟩ (NewDec 10) (NewDec 1)
    (by unfold Validated; decide)).2.1 rfl

/-! ### C15: doubling the quote reserve -/

/-- Chopping an exact multiple of `10^18` gives back the multiplier. -/
theorem chopPrecisionAndRound_mul (s : Int) :
    chopPrecisionAndRound (precisionReuse * s) = s := by
  have hP : (precisionReuse : Int) ≠ 0 := by decide
  have hnn : ∀ t : Int, chopPrecisionAndRoundNonneg (precisionReuse * t) = t := by
    intro t
    simp [chopPrecisionAndRoundNonneg, Int.mul_ediv_cancel_left _ hP]
  unfold chopPrecisionAndRound
  split
  · rw [← mul_neg, hnn]; simp
  · exact hnn s

/-- A strictly positive decimal divided by itself is exactly 1. -/
theorem Dec.quo_self (q : Dec) (hq : q.IsPositive = true) : q.Quo q = NewDec 1 := by
  have hq0 : q.raw ≠ 0 := by
    simp only [Dec.IsPositive, decide_eq_true_eq] at hq
    omega
  have h : Int.tdiv (q.raw * precisionReuse * precisionReuse) q.raw =
      precisionReuse * precisionReuse := by
    rw [mul_assoc]
    exact Int.mul_tdiv_cancel_left _ hq0
  simp only [Dec.Quo, h, chopPrecisionAndRound_mul, NewDec, one_mul]

/-- Multiplying 1 by a decimal gives back the decimal, exactly. -/
theorem Dec.newDec_one_mul (s : Dec) : (NewDec 1).Mul s = s := by
  simp only [Dec.Mul, NewDec, one_mul, chopPrecisionAndRound_mul]

/-- C15: for a request that passes the deadline check on an existing pool with
both reserves strictly positive and a non-zero total supply `S`, whose
`QuoteTokens.Amount` equals the quote reserve, the liquidity that
`handleMsgAddLiquidity` computes is exactly `S`, without rounding error.  It is the
value the handler compares with `MinLiquidity` (once the max-base bound holds, the
request fails with "MinLiquidity is too low" exactly when `S` is less than
`MinLiquidity`) and the value it mints: when the transfer succeeds, and so on every
success, the mint call carries exactly `S` of the pool-share token. -/
theorem C15_doubling_issues_total_supply (ctx : Context) (k : Keeper)
    (msg : MsgAddLiquidity) (pair : SwapTokenPair)
    (hdl : ctx.blockTime ≤ msg.Deadline)
    (hpool : k.pairs msg.GetSwapTokenPair = some pair)
    (hb : pair.BasePooledCoin.IsPositive = true)
    (hq : pair.QuotePooledCoin.IsPositive = true)
    (hts : (k.GetPoolTokenInfo pair.PoolTokenName).TotalSupply.IsZero = false)
    (heq : msg.QuoteTokens.Amount = pair.QuotePooledCoin.Amount) :
    (((msg.QuoteTokens.Amount.Mul pair.BasePooledCoin.Amount).Quo
          pair.QuotePooledCoin.Amount).GT msg.MaxBaseTokens.Amount = false →
      (k.GetPoolTokenInfo pair.PoolTokenName).TotalSupply.LT msg.MinLiquidity = true →
      handleMsgAddLiquidity ctx k msg =
        ({ Code := CodeInternal, Log := "MinLiquidity is too low" }, k)) ∧
    (((msg.QuoteTokens.Amount.Mul pair.BasePooledCoin.Amount).Quo
          pair.QuotePooledCoin.Amount).GT msg.MaxBaseTokens.Amount = false →
      (k.GetPoolTokenInfo pair.PoolTokenName).TotalSupply.LT msg.MinLiquidity = false →
      ctx.sendErr = none →
      (handleMsgAddLiquidity ctx k msg).2.calls = k.calls ++
        [Call.SendCoinsToPool
            [msg.QuoteTokens,
             ⟨msg.MaxBaseTokens.Denom,
              (msg.QuoteTokens.Amount.Mul pair.BasePooledCoin.Amount).Quo
                pair.QuotePooledCoin.Amount⟩] msg.Sender,
         Call.SetSwapTokenPair msg.GetSwapTokenPair pair,
         Call.MintPoolCoinsToUser
            [⟨(k.GetPoolTokenInfo pair.PoolTokenName).Symbol,
              (k.GetPoolTokenInfo pair.PoolTokenName).TotalSupply⟩] msg.Sender]) ∧
    ((handleMsgAddLiquidity ctx k msg).1.IsOK = true →
      (handleMsgAddLiquidity ctx k msg).2.calls = k.calls ++
        [Call.SendCoinsToPool
            [msg.QuoteTokens,
             ⟨msg.MaxBaseTokens.Denom,
              (msg.QuoteTokens.Amount.Mul pair.BasePooledCoin.Amount).Quo
                pair.QuotePooledCoin.Amount⟩] msg.Sender,
         Call.SetSwapTokenPair msg.GetSwapTokenPair pair,
         Call.MintPoolCoinsToUser
            [⟨(k.GetPoolTokenInfo pair.PoolTokenName).Symbol,
              (k.GetPoolTokenInfo pair.PoolTokenName).TotalSupply⟩] msg.Sender]) := by
  have hq2 : pair.QuotePooledCoin.Amount.IsPositive = true := hq
  have hb2 : pair.BasePooledCoin.Amount.IsPositive = true := hb
  have hq0 := isPositive_not_isZero _ hq2
  have h1 : ¬ msg.Deadline < ctx.blockTime := not_lt.mpr hdl
  have hform : (msg.QuoteTokens.Amount.Quo pair.QuotePooledCoin.Amount).Mul
        (k.GetPoolTokenInfo pair.PoolTokenName).TotalSupply =
      (k.GetPoolTokenInfo pair.PoolTokenName).TotalSupply := by
    rw [heq, Dec.quo_self _ hq2, Dec.newDec_one_mul]
  have hcommit : ((msg.QuoteTokens.Amount.Mul pair.BasePooledCoin.Amount).Quo
          pair.QuotePooledCoin.Amount).GT msg.MaxBaseTokens.Amount = false →
      (k.GetPoolTokenInfo pair.PoolTokenName).TotalSupply.LT msg.MinLiquidity = false →
      ctx.sendErr = none →
      (handleMsgAddLiquidity ctx k msg).2.calls = k.calls ++
        commitCalls k msg pair
          ((msg.QuoteTokens.Amount.Mul pair.BasePooledCoin.Amount).Quo
            pair.QuotePooledCoin.Amount)
          (k.GetPoolTokenInfo pair.PoolTokenName).TotalSupply := by
    intro hgt hlt hs
    have hv : Validated ctx k msg pair
        ((msg.QuoteTokens.Amount.Mul pair.BasePooledCoin.Amount).Quo
          pair.QuotePooledCoin.Amount)
        (k.GetPoolTokenInfo pair.PoolTokenName).TotalSupply :=
      ⟨hdl, hpool, Or.inr ⟨hb, hq, hts, rfl, hform.symm⟩, hgt, hlt⟩
    cases hm : ctx.mintErr with
    | some e => exact (add_of_validated_mintErr ctx k msg pair _ _ e hv hs hm).2
    | none => exact (add_of_validated_ok ctx k msg pair _ _ hv hs hm).2
  refine ⟨?_, ?_, ?_⟩
  · intro hgt hlt
    rw [← hform] at hlt
    simp [handleMsgAddLiquidity, Keeper.GetSwapTokenPair, hpool, h1, hq2, hb2, hq0, hts, hgt,
      hlt, NewDecCoinFromDec, DecCoin.IsPositive]
  · intro hgt hlt hs
    simpa [commitCalls] using hcommit hgt hlt hs
  · intro hok
    obtain ⟨p, base, liquidity, hv, hs, _⟩ := add_ok_validated ctx k msg hok
    obtain ⟨_, hp, hbr, hgt, hlt⟩ := hv
    have hpp : p = pair := by rw [hpool] at hp; exact (Option.some.inj hp).symm
    subst hpp
    rcases hbr with ⟨hz, _, _, _⟩ | ⟨_, _, _, rfl, rfl⟩
    · simp_all
    · rw [hform] at hlt
      simpa [commitCalls] using hcommit hgt hlt hs

/-- Witness of C15: quote 50 on the pool (base 100, quote 50) with total supply
1000, max base 100 and min liquidity 1000: exactly 1000 shares are minted. -/
theorem C15_doubling_issues_total_supply_witness :
    (handleMsgAddLiquidity (exampleCtx 5)
      (examplePool (NewDec 100) (NewDec 50) (NewDec 1000))
      (exampleAdd (NewDec 50) (NewDec 100) (NewDec 1000) 100)).2.calls =
      [Call.SendCoinsToPool [⟨"OKT", NewDec 50⟩, ⟨"ABC", NewDec 100⟩] "alice",
       Call.SetSwapTokenPair "ABC_OKT"
          ⟨⟨"ABC", NewDec 100⟩, ⟨"OKT", NewDec 50⟩, "OIP3-ABC"⟩,
       Call.MintPoolCoinsToUser [⟨"OIP3-ABC", NewDec 1000⟩] "alice"] :=
  ((C15_doubling_issues_total_supply (exampleCtx 5)
    (examplePool (NewDec 100) (NewDec 50) (NewDec 1000))
    (exampleAdd (NewDec 50) (NewDec 100) (NewDec 1000) 100)
    ⟨⟨"ABC", NewDec 100⟩, ⟨"OKT", NewDec 50⟩, "OIP3-ABC"⟩
    (by decide) (by decide) (by decide) (by decide) (by decide) rfl).2.2
    (by decide)).trans (by decide)

/-! ### C16: zero total supply with positive reserves -/

/-- C16: a request that passes the deadline check on an existing pool with both
reserves strictly positive whose pool-share token has a zero total supply gets a
failure result with the internal code, whatever `MaxBaseTokens` and `MinLiquidity`
are; the state is left as it was. -/
theorem C16_zero_total_supply (ctx : Context) (k : Keeper) (msg : MsgAddLiquidity)
    (pair : SwapTokenPair)
    (hdl : ctx.blockTime ≤ msg.Deadline)
    (hpool : k.pairs msg.GetSwapTokenPair = some pair)
    (hb : pair.BasePooledCoin.IsPositive = true)
    (hq : pair.QuotePooledCoin.IsPositive = true)
    (hts : (k.GetPoolTokenInfo pair.PoolTokenName).TotalSupply.IsZero = true) :
    handleMsgAddLiquidity ctx k msg =
      ({ Code := CodeInternal,
         Log := "unexpected totalSupply in poolToken " ++
           (k.GetPoolTokenInfo pair.PoolTokenName).String }, k) ∧
    (handleMsgAddLiquidity ctx k msg).1.IsOK = false := by
  have h1 : ¬ msg.Deadline < ctx.blockTime := not_lt.mpr hdl
  simp only [DecCoin.IsPositive] at hb hq
  have hq0 := isPositive_not_isZero _ hq
  simp [handleMsgAddLiquidity, Keeper.GetSwapTokenPair, hpool, h1, hq, hb, hq0, hts,
    DecCoin.IsPositive, Result.IsOK, CodeOK, CodeInternal]

/-- Witness of C16: the pool (base 100, quote 50) with total supply 0. -/
theorem C16_zero_total_supply_witness :
    (handleMsgAddLiquidity (exampleCtx 5) (examplePool (NewDec 100) (NewDec 50) ZeroDec)
      (exampleAdd (NewDec 25) (NewDec 1000) ZeroDec 100)).1.IsOK = false :=
  (C16_zero_total_supply (exampleCtx 5) (examplePool (NewDec 100) (NewDec 50) ZeroDec)
    (exampleAdd (NewDec 25) (NewDec 1000) ZeroDec 100)
    ⟨⟨"ABC", NewDec 100⟩, ⟨"OKT", NewDec 50⟩, "OIP3-ABC"⟩
    (by decide) (by decide) (by decide) (by decide) (by decide)).2

/-! ### C17: inconsistent reserves -/

/-- C17: a request that passes the deadline check on an existing pool in which
exactly one of the two reserves is strictly positive and the other is zero gets a
failure result with the internal code; the state, and so the stored record, is
left as it was. -/
theorem C17_inconsistent_reserves (ctx : Context) (k : Keeper) (msg : MsgAddLiquidity)
    (pair : SwapTokenPair)
    (hdl : ctx.blockTime ≤ msg.Deadline)
    (hpool : k.pairs msg.GetSwapTokenPair = some pair)
    (hmix : (pair.BasePooledCoin.IsPositive = true ∧
        pair.QuotePooledCoin.Amount.IsZero = true) ∨
      (pair.BasePooledCoin.Amount.IsZero = true ∧
        pair.QuotePooledCoin.IsPositive = true)) :
    handleMsgAddLiquidity ctx k msg =
      ({ Code := CodeInternal, Log := "invalid swapTokenPair " ++ pair.String }, k) ∧
    (handleMsgAddLiquidity ctx k msg).1.IsOK = false ∧
    (handleMsgAddLiquidity ctx k msg).2.pairs msg.GetSwapTokenPair = some pair := by
  have h1 : ¬ msg.Deadline < ctx.blockTime := not_lt.mpr hdl
  have hpz : ∀ d : Dec, d.IsZero = true → d.IsPositive = false := by
    intro d h
    simp only [Dec.IsPositive, Dec.IsZero, decide_eq_true_eq, decide_eq_false_iff_not] at *
    omega
  have hmain : handleMsgAddLiquidity ctx k msg =
      ({ Code := CodeInternal, Log := "invalid swapTokenPair " ++ pair.String }, k) := by
    rcases hmix with ⟨hb, hq⟩ | ⟨hb, hq⟩
    · simp only [DecCoin.IsPositive] at hb
      have hb0 := isPositive_not_isZero _ hb
      have hqp := hpz _ hq
      simp [handleMsgAddLiquidity, Keeper.GetSwapTokenPair, hpool, h1, hq, hb, hb0, hqp,
        DecCoin.IsPositive]
    · simp only [DecCoin.IsPositive] at hq
      have hq0 := isPositive_not_isZero _ hq
      have hbp := hpz _ hb
      simp [handleMsgAddLiquidity, Keeper.GetSwapTokenPair, hpool, h1, hq, hb, hq0, hbp,
        DecCoin.IsPositive]
  refine ⟨hmain, by rw [hmain]; rfl, by rw [hmain]; exact hpool⟩

/-- Witness of C17: the pool (base 100, quote 0). -/
theorem C17_inconsistent_reserves_witness :
    (handleMsgAddLiquidity (exampleCtx 5) (examplePool (NewDec 100) ZeroDec (NewDec 1000))
      (exampleAdd (NewDec 25) (NewDec 1000) ZeroDec 100)).1.IsOK = false :=
  (C17_inconsistent_reserves (exampleCtx 5)
    (examplePool (NewDec 100) ZeroDec (NewDec 1000))
    (exampleAdd (NewDec 25) (NewDec 1000) ZeroDec 100)
    ⟨⟨"ABC", NewDec 100⟩, ⟨"OKT", ZeroDec⟩, "OIP3-ABC"⟩
    (by decide) (by decide) (Or.inl (by decide))).2.1

/-! ### C18: the deadline check away from equality -/

/-- C18: for a request whose `Deadline` differs from the block time, the handler
returns the deadline failure "blockTime exceeded deadline" exactly when `Deadline`
is strictly earlier than the block time: either `Deadline` is earlier and the
result is that failure with the state left as it was, or `Deadline` is later and
the result is not that failure.  In particular a request whose `Deadline` is one
second after the block time, on an existing pool with both reserves zero, with
`MinLiquidity` at most 1 and with transfer and mint succeeding, succeeds. -/
theorem C18_deadline_away_from_equality (ctx : Context) (k : Keeper)
    (msg : MsgAddLiquidity) (hne : msg.Deadline ≠ ctx.blockTime) :
    ((handleMsgAddLiquidity ctx k msg).1.Log = "blockTime exceeded deadline" ↔
      msg.Deadline < ctx.blockTime) ∧
    ((msg.Deadline < ctx.blockTime ∧
        handleMsgAddLiquidity ctx k msg =
          ({ Code := CodeInternal, Log := "blockTime exceeded deadline" }, k)) ∨
      (ctx.blockTime < msg.Deadline ∧
        (handleMsgAddLiquidity ctx k msg).1.Log ≠ "blockTime exceeded deadline")) ∧
    (∀ pair : SwapTokenPair, msg.Deadline = ctx.blockTime + 1 →
      k.pairs msg.GetSwapTokenPair = some pair →
      pair.QuotePooledCoin.Amount.IsZero = true →
      pair.BasePooledCoin.Amount.IsZero = true →
      msg.MinLiquidity.raw ≤ (NewDec 1).raw →
      ctx.sendErr = none → ctx.mintErr = none →
      (handleMsgAddLiquidity ctx k msg).1.IsOK = true) := by
  have hrej : msg.Deadline < ctx.blockTime → handleMsgAddLiquidity ctx k msg =
      ({ Code := CodeInternal, Log := "blockTime exceeded deadline" }, k) := by
    intro hd
    simp [handleMsgAddLiquidity, hd]
  refine ⟨⟨?_, ?_⟩, ?_, ?_⟩
  · intro hlog
    by_contra hd
    exact add_log_ne_deadline ctx k msg hd hlog
  · intro hd
    rw [hrej hd]
  · rcases lt_or_gt_of_ne hne with hd | hd
    · exact Or.inl ⟨hd, hrej hd⟩
    · exact Or.inr ⟨hd, add_log_ne_deadline ctx k msg (not_lt.mpr (le_of_lt hd))⟩
  · intro pair hdl hpool hq hb hmin hsend hmint
    have hv : Validated ctx k msg pair msg.MaxBaseTokens.Amount (NewDec 1) :=
      ⟨by omega, hpool, Or.inl ⟨hq, hb, rfl, rfl⟩, by simp [Dec.GT],
        by simpa [Dec.LT] using hmin⟩
    rw [(add_of_validated_ok ctx k msg pair _ _ hv hsend hmint).1]
    rfl

/-- Witness of C18: deadline 6 at block time 5, into the empty pool `ABC_OKT`. -/
theorem C18_deadline_away_from_equality_witness :
    (6 : Int) ≠ 5 ∧
    (handleMsgAddLiquidity (exampleCtx 5) (examplePool ZeroDec ZeroDec ZeroDec)
      (exampleAdd (NewDec 10) (NewDec 10) (NewDec 1) 6)).1.IsOK = true :=
  ⟨by decide,
   (C18_deadline_away_from_equality (exampleCtx 5) (examplePool ZeroDec ZeroDec ZeroDec)
      (exampleAdd (NewDec 10) (NewDec 10) (NewDec 1) 6) (by decide)).2.2
      ⟨⟨"ABC", ZeroDec⟩, ⟨"OKT", ZeroDec⟩, "OIP3-ABC"⟩
      (by decide) (by decide) (by decide) (by decide) (by decide) rfl rfl⟩

/-! ### C19: the event of a successful add-liquidity -/

/-- C19 (defect of the code): after creating the pool for `ABC`, adding liquidity
with quote 10, max base 10 and min liquidity 1 succeeds, sends 10 `ABC` to escrow
and mints 1 share, whose texts are `10.000000000000000000ABC` and
`1.000000000000000000`; but the only event of the result is the message event with
the single attribute `module`, so it carries neither a `liquidity` nor a
`baseTokens` attribute: the events returned by `AppendAttributes` are dropped.
Failure results carry no event, as claimed. -/
theorem C19_add_event_lacks_attributes :
    (handleMsgAddLiquidity (exampleCtx 5) exampleCreated
      (exampleAdd (NewDec 10) (NewDec 10) (NewDec 1) 100)).1 =
      { Code := CodeOK, Log := "", Events := [⟨"message", [⟨"module", "swap"⟩]⟩] } ∧
    (handleMsgAddLiquidity (exampleCtx 5) exampleCreated
      (exampleAdd (NewDec 10) (NewDec 10) (NewDec 1) 100)).2.calls =
      exampleCreated.calls ++
        [Call.SendCoinsToPool [⟨"OKT", NewDec 10⟩, ⟨"ABC", NewDec 10⟩] "alice",
         Call.SetSwapTokenPair "ABC_OKT" ⟨⟨"ABC", ZeroDec⟩, ⟨"OKT", ZeroDec⟩, "OIP3-ABC"⟩,
         Call.MintPoolCoinsToUser [⟨"OIP3-ABC", NewDec 1⟩] "alice"] ∧
    (NewDec 1).String = "1.000000000000000000" ∧
    (DecCoin.mk "ABC" (NewDec 10)).String = "10.000000000000000000ABC" ∧
    (∀ ev ∈ (handleMsgAddLiquidity (exampleCtx 5) exampleCreated
        (exampleAdd (NewDec 10) (NewDec 10) (NewDec 1) 100)).1.Events,
      ∀ a ∈ ev.Attributes, a.Key ≠ "liquidity" ∧ a.Key ≠ "baseTokens") ∧
    (∀ (ctx : Context) (k : Keeper) (msg : MsgAddLiquidity),
      (handleMsgAddLiquidity ctx k msg).1.IsOK = true ∨
      (handleMsgAddLiquidity ctx k msg).1.Events = []) := by
  refine ⟨by decide, by decide, by decide, by decide, by decide, ?_⟩
  intro ctx k msg
  rcases add_validated_or_rejected ctx k msg with ⟨pair, base, liquidity, hv⟩ | ⟨_, he, _⟩
  · cases hs : ctx.sendErr with
    | some e =>
      right
      rw [add_of_validated_sendErr ctx k msg pair base liquidity e hv hs]
    | none =>
      cases hm : ctx.mintErr with
      | some e =>
        right
        rw [(add_of_validated_mintErr ctx k msg pair base liquidity e hv hs hm).1]
      | none =>
        left
        rw [(add_of_validated_ok ctx k msg pair base liquidity hv hs hm).1]
        rfl
  · exact Or.inr he

/-! ### C20: the liquidity minted for a positive quote amount -/

/-- C20, counterexample: on the pool (base 10, quote 10) with total supply 1000, the
request with the strictly positive quote amount `0.000000000000000001`, max base
10 and min liquidity 0 succeeds, and the liquidity minted to the sender is zero:
`Quo` rounds the ratio of the quote amount to the quote reserve down to zero. -/
theorem C20_zero_liquidity_minted :
    (Dec.mk 1).IsPositive = true ∧
    (handleMsgAddLiquidity (exampleCtx 5)
      (examplePool (NewDec 10) (NewDec 10) (NewDec 1000))
      (exampleAdd (Dec.mk 1) (NewDec 10) ZeroDec 100)).1.IsOK = true ∧
    (handleMsgAddLiquidity (exampleCtx 5)
      (examplePool (NewDec 10) (NewDec 10) (NewDec 1000))
      (exampleAdd (Dec.mk 1) (NewDec 10) ZeroDec 100)).2.calls =
      [Call.SendCoinsToPool [⟨"OKT", Dec.mk 1⟩, ⟨"ABC", Dec.mk 1⟩] "alice",
       Call.SetSwapTokenPair "ABC_OKT" ⟨⟨"ABC", NewDec 10⟩, ⟨"OKT", NewDec 10⟩, "OIP3-ABC"⟩,
       Call.MintPoolCoinsToUser [⟨"OIP3-ABC", ZeroDec⟩] "alice"] ∧
    ZeroDec.IsPositive = false := by
  decide

/-- Chopping a non-negative integer gives a non-negative integer. -/
theorem chopPrecisionAndRound_nonneg (m : Int) (h : 0 ≤ m) :
    0 ≤ chopPrecisionAndRound m := by
  unfold chopPrecisionAndRound chopPrecisionAndRoundNonneg precisionReuse fivePrecision
  simp only []
  split_ifs <;> omega

/-- Chopping a non-negative integer gives zero exactly up to half the scaling
factor: at exactly one half the tie goes to the even neighbour, zero. -/
theorem chopPrecisionAndRound_eq_zero_iff (m : Int) (h : 0 ≤ m) :
    chopPrecisionAndRound m = 0 ↔ m ≤ fivePrecision := by
  unfold chopPrecisionAndRound chopPrecisionAndRoundNonneg precisionReuse fivePrecision
  simp only []
  split_ifs <;> omega

/-- C20, as amended: when a request with a strictly positive `QuoteTokens.Amount`
succeeds on a pool with both reserves strictly positive and a strictly positive
total supply, the liquidity minted to the sender is
`QuoteTokens.Amount.Quo(quote reserve).Mul(TotalSupply)`; it is never negative, and
it is strictly positive exactly when the rounded ratio
`r = QuoteTokens.Amount.Quo(quote reserve)` and the total supply satisfy
`r.raw * TotalSupply.raw > 5 * 10^17`, that is unless one of the two roundings
takes it to zero.  `Quo` rounds the ratio itself to zero exactly when
`QuoteTokens.Amount.raw * 10^36 < (5 * 10^17 + 1) * (quote reserve).raw`, and then
zero shares are minted. -/
theorem C20_minted_liquidity_positive_iff (ctx : Context) (k : Keeper)
    (msg : MsgAddLiquidity) (pair : SwapTokenPair)
    (hpool : k.pairs msg.GetSwapTokenPair = some pair)
    (hb : pair.BasePooledCoin.IsPositive = true)
    (hq : pair.QuotePooledCoin.IsPositive = true)
    (hquote : msg.QuoteTokens.Amount.IsPositive = true)
    (hsupply : (k.GetPoolTokenInfo pair.PoolTokenName).TotalSupply.IsPositive = true)
    (hok : (handleMsgAddLiquidity ctx k msg).1.IsOK = true) :
    (handleMsgAddLiquidity ctx k msg).2.calls = k.calls ++
      [Call.SendCoinsToPool
          [msg.QuoteTokens,
           ⟨msg.MaxBaseTokens.Denom,
            (msg.QuoteTokens.Amount.Mul pair.BasePooledCoin.Amount).Quo
              pair.QuotePooledCoin.Amount⟩] msg.Sender,
       Call.SetSwapTokenPair msg.GetSwapTokenPair pair,
       Call.MintPoolCoinsToUser
          [⟨(k.GetPoolTokenInfo pair.PoolTokenName).Symbol,
            (msg.QuoteTokens.Amount.Quo pair.QuotePooledCoin.Amount).Mul
              (k.GetPoolTokenInfo pair.PoolTokenName).TotalSupply⟩] msg.Sender] ∧
    0 ≤ ((msg.QuoteTokens.Amount.Quo pair.QuotePooledCoin.Amount).Mul
      (k.GetPoolTokenInfo pair.PoolTokenName).TotalSupply).raw ∧
    (((msg.QuoteTokens.Amount.Quo pair.QuotePooledCoin.Amount).Mul
        (k.GetPoolTokenInfo pair.PoolTokenName).TotalSupply).IsPositive = true ↔
      fivePrecision < (msg.QuoteTokens.Amount.Quo pair.QuotePooledCoin.Amount).raw *
        (k.GetPoolTokenInfo pair.PoolTokenName).TotalSupply.raw) ∧
    ((msg.QuoteTokens.Amount.Quo pair.QuotePooledCoin.Amount).raw = 0 ↔
      msg.QuoteTokens.Amount.raw * precisionReuse * precisionReuse <
        (fivePrecision + 1) * pair.QuotePooledCoin.Amount.raw) ∧
    ((msg.QuoteTokens.Amount.Quo pair.QuotePooledCoin.Amount).raw = 0 →
      (msg.QuoteTokens.Amount.Quo pair.QuotePooledCoin.Amount).Mul
        (k.GetPoolTokenInfo pair.PoolTokenName).TotalSupply = ZeroDec) := by
  have hq2 : pair.QuotePooledCoin.Amount.IsPositive = true := hq
  have hqr : 0 < pair.QuotePooledCoin.Amount.raw := by
    simpa [Dec.IsPositive] using hq2
  have hqt : 0 < msg.QuoteTokens.Amount.raw := by
    simpa [Dec.IsPositive] using hquote
  have hts : 0 < (k.GetPoolTokenInfo pair.PoolTokenName).TotalSupply.raw := by
    simpa [Dec.IsPositive] using hsupply
  have hP : (0 : Int) < precisionReuse := by decide
  have hnum : 0 ≤ msg.QuoteTokens.Amount.raw * precisionReuse * precisionReuse :=
    mul_nonneg (mul_nonneg (le_of_lt hqt) (le_of_lt hP)) (le_of_lt hP)
  have htd : Int.tdiv (msg.QuoteTokens.Amount.raw * precisionReuse * precisionReuse)
        pair.QuotePooledCoin.Amount.raw =
      msg.QuoteTokens.Amount.raw * precisionReuse * precisionReuse /
        pair.QuotePooledCoin.Amount.raw :=
    Int.tdiv_eq_ediv hnum (le_of_lt hqr)
  have hdiv : 0 ≤ msg.QuoteTokens.Amount.raw * precisionReuse * precisionReuse /
      pair.QuotePooledCoin.Amount.raw := Int.ediv_nonneg hnum (le_of_lt hqr)
  have hr : 0 ≤ (msg.QuoteTokens.Amount.Quo pair.QuotePooledCoin.Amount).raw := by
    simp only [Dec.Quo, htd]
    exact chopPrecisionAndRound_nonneg _ hdiv
  have hprod : 0 ≤ (msg.QuoteTokens.Amount.Quo pair.QuotePooledCoin.Amount).raw *
      (k.GetPoolTokenInfo pair.PoolTokenName).TotalSupply.raw :=
    mul_nonneg hr (le_of_lt hts)
  have hL : 0 ≤ ((msg.QuoteTokens.Amount.Quo pair.QuotePooledCoin.Amount).Mul
      (k.GetPoolTokenInfo pair.PoolTokenName).TotalSupply).raw := by
    simp only [Dec.Mul]
    exact chopPrecisionAndRound_nonneg _ hprod
  refine ⟨?_, hL, ?_, ?_, ?_⟩
  · obtain ⟨p, base, liquidity, hv, hs, hm⟩ := add_ok_validated ctx k msg hok
    have hcalls := (add_of_validated_ok ctx k msg p base liquidity hv hs hm).2
    obtain ⟨_, hp, hbr, _, _⟩ := hv
    have hpp : p = pair := by rw [hpool] at hp; exact (Option.some.inj hp).symm
    subst hpp
    rcases hbr with ⟨hq0, _, _, _⟩ | ⟨_, _, _, rfl, rfl⟩
    · have := isPositive_not_isZero _ hq2
      simp_all
    · simpa [commitCalls] using hcalls
  · have hz := chopPrecisionAndRound_eq_zero_iff _ hprod
    simp only [Dec.Mul] at hL
    simp only [Dec.IsPositive, Dec.Mul, decide_eq_true_eq]
    constructor
    · intro hpos
      by_contra hle
      have := hz.mpr (not_lt.mp hle)
      omega
    · intro hgt
      have hne : ¬ chopPrecisionAndRound
          ((msg.QuoteTokens.Amount.Quo pair.QuotePooledCoin.Amount).raw *
            (k.GetPoolTokenInfo pair.PoolTokenName).TotalSupply.raw) = 0 :=
        fun h0 => absurd (hz.mp h0) (not_le.mpr hgt)
      omega
  · simp only [Dec.Quo, htd]
    rw [chopPrecisionAndRound_eq_zero_iff _ hdiv, ← Int.lt_add_one_iff,
      Int.ediv_lt_iff_lt_mul hqr]
  · intro h0
    simp only [Dec.Mul, h0, zero_mul, ZeroDec]
    congr 1

/-- Witness of the amended C20: quote 25 with min liquidity 0 on the pool (base
100, quote 50) with total supply 1000 mints 500 shares. -/
theorem C20_minted_liquidity_positive_iff_witness :
    (handleMsgAddLiquidity (exampleCtx 5)
      (examplePool (NewDec 100) (NewDec 50) (NewDec 1000))
      (exampleAdd (NewDec 25) (NewDec 50) ZeroDec 100)).2.calls =
      [Call.SendCoinsToPool [⟨"OKT", NewDec 25⟩, ⟨"ABC", NewDec 50⟩] "alice",
       Call.SetSwapTokenPair "ABC_OKT"
         ⟨⟨"ABC", NewDec 100⟩, ⟨"OKT", NewDec 50⟩, "OIP3-ABC"⟩,
       Call.MintPoolCoinsToUser [⟨"OIP3-ABC", NewDec 500⟩] "alice"] ∧
    (NewDec 500).IsPositive = true :=
  ⟨(C20_minted_liquidity_positive_iff (exampleCtx 5)
      (examplePool (NewDec 100) (NewDec 50) (NewDec 1000))
      (exampleAdd (NewDec 25) (NewDec 50) ZeroDec 100)
      ⟨⟨"ABC", NewDec 100⟩, ⟨"OKT", NewDec 50⟩, "OIP3-ABC"⟩
      (by decide) (by decide) (by decide) (by decide) (by decide) (by decide)).1.trans
      (by decide),
   by decide⟩

end Swap
